import Mathlib

/-!
# API access layer of the storefront (`src/services/api.js`)

A shallow embedding of the access layer of the storefront, followed by the
theorems that settle the specification claims about it: the retry policy, the
in-memory read cache and its keys, the shape normalisers for listings, blog
posts and users, the urls and request options of the facades, the upload
helper, the bearer credential and the signup error handling of `api.js`; the
category normalisers of the pages; and the token and user snapshots that
`AuthContext.jsx` and `Admin.jsx` keep in `localStorage`.

Conventions of the embedding

* JavaScript values are the type `JsVal`; a property that is absent reads as
  `JsVal.undefined`, exactly as a property access does in the source.
* The numbers among the values of `JsVal` are the integers. The numbers that
  are not integers (fractions, `NaN`, the infinities) are the type `NonInteger`
  and are given where the code tests for them, in the limit of a listing read.
* Times and durations are integers (milliseconds, as `Date.now()` returns).
* Asynchronous code is modelled by explicit state passing: the synchronous
  prefix of a call is one transition, the settlement of the network promise
  (with the continuations that the microtask queue runs right after it) is
  another. Where only the outcome of a request matters, the operation is a
  function of that outcome.
-/

namespace Api

/-! ## JavaScript values -/

/-- JSON-like JavaScript values as they reach the access layer. -/
inductive JsVal where
  | undefined
  | null
  | bool (b : Bool)
  | num (n : Int)
  | str (s : String)
  | arr (xs : List JsVal)
  | obj (fields : List (String × JsVal))

/-- A thrown JavaScript exception of the normalisers: the `TypeError` of a
property read on `undefined` or `null`. -/
inductive JsError where
  | typeError
  deriving DecidableEq, Repr

namespace JsVal

instance : Inhabited JsVal := ⟨JsVal.undefined⟩

/-- JavaScript truthiness (`!!v`). -/
def truthy : JsVal → Bool
  | undefined => false
  | null => false
  | bool b => b
  | num n => n != 0
  | str s => s != ""
  | arr _ => true
  | obj _ => true

/-- Test `typeof v === 'string'`. -/
def isString : JsVal → Bool
  | str _ => true
  | _ => false

/-- Test `Array.isArray(v)`. -/
def isArray : JsVal → Bool
  | arr _ => true
  | _ => false

/-- Test `typeof v === 'object'` (true of `null`, arrays and plain objects). -/
def typeofObject : JsVal → Bool
  | null => true
  | arr _ => true
  | obj _ => true
  | _ => false

/-- Own-property lookup in a field list. -/
def lookupField (k : String) : List (String × JsVal) → JsVal
  | [] => undefined
  | (k', v) :: rest => if k' = k then v else lookupField k rest

/-- Property read `v.k` for a name `k` that no prototype defines (`url`, `file`,
`file_url`, `fileUrl`, `image_url`, `id`, ...): a `TypeError` on `undefined` and
`null`, the own property of a plain object, `undefined` on every other value. -/
def getProp (v : JsVal) (k : String) : Except JsError JsVal :=
  match v with
  | undefined => Except.error JsError.typeError
  | null => Except.error JsError.typeError
  | obj fields => Except.ok (lookupField k fields)
  | _ => Except.ok undefined

/-- Optional chaining `v?.k` (same names): `undefined` on a nullish `v`, the
property otherwise; it never throws. -/
def optProp (v : JsVal) (k : String) : JsVal :=
  match v with
  | obj fields => lookupField k fields
  | _ => undefined

/-- Logical or `a || b`. -/
def or (a b : JsVal) : JsVal := if a.truthy then a else b

/-- Nullish coalescing `a ?? b`. -/
def coalesce (a b : JsVal) : JsVal :=
  match a with
  | undefined => b
  | null => b
  | w => w

end JsVal

/-! ## Retry policy (`api.interceptors.response.use`, lines 75-117) -/

/-- The request configuration as far as the interceptors read it:
`config.method`, `config.url` and the counter `config.__retryCount`
(`none` while the property is undefined). -/
structure RequestConfig where
  method : Option String
  url : String
  retryCount : Option Nat
  deriving DecidableEq, Repr

/-- An axios error: `error.config` and `error.response?.status`
(`status = none` when no response was received). -/
structure AxiosError where
  config : Option RequestConfig
  status : Option Nat
  deriving DecidableEq, Repr

/-- The string method `toUpperCase`, on the letters `a`..`z`. No character outside
ASCII has `G`, `E` or `T` alone as its upper case, so the test
`method === 'GET'` of the source is decided by this function. -/
def toUpperCase (s : String) : String := ⟨s.data.map Char.toUpper⟩

/-- The letter case mapping of `toLowerCase` on the ASCII and Latin-1 capital
letters; other characters are left as they are. No character outside these
ranges has a lower case that is a letter of `get` or that makes one of the
patterns searched in the signup messages match. -/
def lowerChar (c : Char) : Char :=
  if (65 ≤ c.toNat ∧ c.toNat ≤ 90) ∨ (192 ≤ c.toNat ∧ c.toNat ≤ 222 ∧ c.toNat ≠ 215) then
    Char.ofNat (c.toNat + 32)
  else c

/-- The string method `toLowerCase`. -/
def toLowerCase (s : String) : String := ⟨s.data.map lowerChar⟩

/-- The constant `MAX_RETRIES` of the retry interceptor. -/
def MAX_RETRIES : Nat := 2

/-- What a rejection handler does with an error: issue `api.request(config)`
again after `delay` milliseconds, or reject. -/
inductive Handled where
  | retry (delay : Nat) (config : RequestConfig)
  | reject (error : AxiosError)
  deriving DecidableEq, Repr

/-- The first rejection handler on `api` (lines 75-86): logs and rejects with
the same error. -/
def loggingInterceptor (error : AxiosError) : AxiosError := error

/-- The retry interceptor (lines 99-117). `error.config || {}` is the empty
configuration when the error carries none. -/
def retryInterceptor (error : AxiosError) : Handled :=
  let config := error.config.getD { method := none, url := "", retryCount := none }
  let method := toUpperCase (config.method.getD "")
  let status := error.status
  if status = some 429 ∧ method = "GET" then
    let count := config.retryCount.getD 0
    if count < MAX_RETRIES then
      let count1 := count + 1
      let delay := 2 ^ count1 * 250
      Handled.retry delay { config with retryCount := some count1 }
    else
      Handled.reject error
  else
    Handled.reject error

/-- The answer of the remote service to one HTTP request: a response with data,
or a failure with the response status (`none`: no response at all). -/
inductive Reply where
  | success (data : JsVal)
  | failure (status : Option Nat)

/-- What a run of `api.request` has done so far: the configurations of the
HTTP requests issued, in order, and the delays slept before the retries. -/
structure Trace where
  issued : List RequestConfig
  waits : List Nat
  deriving DecidableEq, Repr

/-- The configuration that axios dispatches for `api.request(config)`: the
method is `(config.method || defaults.method || 'get').toLowerCase()`, and
`api` is created without a default method (lines 40-46). A request without a
method, or with the empty string as method, is therefore a `get`. -/
def dispatched (config : RequestConfig) : RequestConfig :=
  { config with
    method := some (toLowerCase
      (match config.method with
       | some m => if m = "" then "get" else m
       | none => "get")) }

/-- The call `api.request(config)` against a service that answers the `n`-th
request (counted from 0) with `server n config`, where `config` is the
configuration as dispatched. A failure is turned into an axios error carrying
the dispatched configuration, passed through the logging handler and then the
retry handler; a retry sleeps `delay` and re-enters `api.request`.
`fuel` bounds the number of HTTP requests; `none` means it ran out. The third
rejection handler on `api` (lines 1701-1715, for an expired token) passes every
error on unchanged and acts on the stored credential only; it is not part of
this function. -/
def request (server : Nat → RequestConfig → Reply) :
    Nat → RequestConfig → Trace → Option (Except AxiosError JsVal × Trace)
  | 0, _, _ => none
  | fuel + 1, given, tr =>
    let config := dispatched given
    let tr1 : Trace := { tr with issued := tr.issued ++ [config] }
    match server tr.issued.length config with
    | Reply.success data => some (Except.ok data, tr1)
    | Reply.failure status =>
      match retryInterceptor (loggingInterceptor { config := some config, status := status }) with
      | Handled.retry delay config1 =>
        request server fuel config1 { tr1 with waits := tr1.waits ++ [delay] }
      | Handled.reject error => some (Except.error error, tr1)

/-- The call `api.get(url)`: a request with method `get` and no retry counter. -/
def apiGet (server : Nat → RequestConfig → Reply) (fuel : Nat) (url : String) :
    Option (Except AxiosError JsVal × Trace) :=
  request server fuel { method := some "get", url := url, retryCount := none } ⟨[], []⟩

/-! ## In-memory cache (`simpleCache`, `cachedGet`, lines 119-171) -/

/-- The cache key of `cachedGet`: `String(api.defaults.baseURL) + '::' + url`. -/
def cacheKey (base url : String) : String := base ++ "::" ++ url

/-- An entry of `simpleCache`: `{ t, value, promise }`. A settled entry has no
`promise`; an in-flight entry has no `value` (it reads as `undefined`). -/
structure Entry where
  t : Int
  value : JsVal
  promise : Option Nat

/-- A continuation suspended on the promise `p` of `cachedGet`: the call that
created `p` (`const data = await p`, line 169) or a later call that found the
in-flight entry (`await entry.promise`, line 143). The number names the caller. -/
inductive Waiter where
  | starter (caller : Nat)
  | joiner (caller : Nat)
  deriving DecidableEq, Repr

/-- The state of a promise `p` built at lines 155-164. While pending it holds
the key captured by its callbacks and the continuations awaiting it, in the
order in which they were registered. -/
inductive PromiseState where
  | pending (key : String) (waiters : List Waiter)
  | fulfilled (data : JsVal)
  | rejected (err : AxiosError)

/-- The module state that `cachedGet` and the facades act on. -/
structure World where
  /-- The value of `api.defaults.baseURL`. -/
  baseURL : String
  /-- The map `simpleCache`. -/
  cache : String → Option Entry
  /-- The promises created by `cachedGet`, by identifier. -/
  promises : Nat → Option PromiseState
  /-- The identifier of the next promise. -/
  nextId : Nat
  /-- The urls of the calls `api.get(url)` made by `cachedGet`, in order. -/
  gets : List String
  /-- The write requests (`method`, `url`) sent through `api`, in order. -/
  writes : List (String × String)
  /-- The calls of `cachedGet` that have returned or thrown, by caller, in order. -/
  results : List (Nat × Except AxiosError JsVal)

/-- The state right after the module has loaded: an empty cache, nothing sent. -/
def World.init (base : String) : World :=
  { baseURL := base, cache := fun _ => none, promises := fun _ => none, nextId := 0,
    gets := [], writes := [], results := [] }

/-- The method `simpleCache.set(key, entry)`. -/
def cacheSet (key : String) (e : Entry) (w : World) : World :=
  { w with cache := fun k => if k = key then some e else w.cache k }

/-- The method `simpleCache.delete(key)`. -/
def cacheDelete (key : String) (w : World) : World :=
  { w with cache := fun k => if k = key then none else w.cache k }

/-- A call of `cachedGet` completes for `caller` with `r`. -/
def finish (caller : Nat) (r : Except AxiosError JsVal) (w : World) : World :=
  { w with results := w.results ++ [(caller, r)] }

/-- The code that runs when an awaited promise of `cachedGet` has settled with
`outcome`. The starter returns the data or rethrows (lines 169-170). A joiner
returns `latest ? latest.value : null` read from the cache at that moment, or
deletes the key and rethrows (lines 143-150). -/
def resume (key : String) (outcome : Except AxiosError JsVal) (w : World) : Waiter → World
  | Waiter.starter caller => finish caller outcome w
  | Waiter.joiner caller =>
    match outcome with
    | Except.ok _ =>
      match w.cache key with
      | some latest => finish caller (Except.ok latest.value) w
      | none => finish caller (Except.ok JsVal.null) w
    | Except.error err => finish caller (Except.error err) (cacheDelete key w)

/-- Lines 155-169: issue `api.get(url)`, build the promise `p` with its
callbacks, store `{ t: now, promise: p }` under the key and await `p`. -/
def startRead (caller : Nat) (url key : String) (now : Int) (w : World) : World :=
  let pid := w.nextId
  cacheSet key { t := now, value := JsVal.undefined, promise := some pid }
    { w with
      promises := fun i =>
        if i = pid then some (PromiseState.pending key [Waiter.starter caller])
        else w.promises i
      nextId := pid + 1
      gets := w.gets ++ [url] }

/-- The synchronous part of `cachedGet(url, ttl)` called at time `now`
(lines 130-169), for the caller named `caller`: a fresh settled entry is
returned at once; an entry with a promise is awaited; otherwise `api.get(url)`
is issued, its promise stored in the cache and awaited. -/
def cachedGet (caller : Nat) (url : String) (ttl now : Int) (w : World) : World :=
  let key := cacheKey w.baseURL url
  let entry := w.cache key
  match entry with
  | some e =>
    if e.value.truthy ∧ now - e.t < ttl then
      finish caller (Except.ok e.value) w
    else
      match e.promise with
      | some pid =>
        match w.promises pid with
        | some (PromiseState.pending k ws) =>
          { w with promises := fun i =>
              if i = pid then some (PromiseState.pending k (ws ++ [Waiter.joiner caller]))
              else w.promises i }
        | some (PromiseState.fulfilled data) => resume key (Except.ok data) w (Waiter.joiner caller)
        | some (PromiseState.rejected err) => resume key (Except.error err) w (Waiter.joiner caller)
        | none => w
      | none =>
        startRead caller url key now w
  | none =>
    startRead caller url key now w

/-- The read `api.get(url)` behind promise `pid` settles at time `now` with
`outcome` (its result after the retry policy). The callback of lines 156-164
runs: on success the key is set to `{ t: Date.now(), value: response.data }`,
on failure the key is deleted. The promise then settles and its waiters resume
in registration order, before any other task runs. A promise that is not
pending is left alone. -/
def settle (pid : Nat) (outcome : Except AxiosError JsVal) (now : Int) (w : World) : World :=
  match w.promises pid with
  | some (PromiseState.pending key ws) =>
    let w1 : World :=
      match outcome with
      | Except.ok data => cacheSet key { t := now, value := data, promise := none } w
      | Except.error _ => cacheDelete key w
    let w2 : World :=
      { w1 with promises := fun i =>
          if i = pid then
            some (match outcome with
              | Except.ok data => PromiseState.fulfilled data
              | Except.error err => PromiseState.rejected err)
          else w1.promises i }
    ws.foldl (resume key outcome) w2
  | _ => w

/-- The caller behind a waiter. -/
def Waiter.caller : Waiter → Nat
  | Waiter.starter c => c
  | Waiter.joiner c => c

/-- A batch of calls `cachedGet(url, ttl)` for one url, each given as
(caller, ttl, time of the call), made one after the other with no settlement
in between. -/
def cachedGetAll (url : String) (calls : List (Nat × Int × Int)) (w : World) : World :=
  calls.foldl (fun w c => cachedGet c.1 url c.2.1 c.2.2 w) w

/-! ## Domain facades (`usuariosAPI`, `serviciosAPI`, `blogsAPI`) -/

/-- The route `ENDPOINTS.USERS`. -/
def ENDPOINTS.USERS : String := "/user"

/-- The route `ENDPOINTS.SERVICES`. -/
def ENDPOINTS.SERVICES : String := "/service"

/-- The route `ENDPOINTS.BLOGS`. -/
def ENDPOINTS.BLOGS : String := "/blog"

/-- A write `api.patch(url, data)` or `api.delete(url)`: the request is sent.
Neither the call nor the code that runs when it completes touches
`simpleCache`, so the state after completion is the state after the call. -/
def apiWrite (method url : String) (w : World) : World :=
  { w with writes := w.writes ++ [(method, url)] }

/-! ### The text of a number

JavaScript numbers are doubles. `JsVal.num n` stands for the number whose value
is the integer `n`: every integer below 2^53 is a double, and from there on the
doubles are the integers with at most 53 significant binary digits. An integer
that is no double is read as the double nearest to it, as a numeric literal of
that value is. The text of a number (`String(x)`, a template literal) is the
shortest decimal that reads back as the same double, written in full below
10^21 and with an exponent from there on. -/

/-- The position of the leading binary digit of a positive number. -/
def log2 (n : Nat) : Nat := (Nat.toDigits 2 n).length - 1

/-- The double nearest to a natural number: 53 significant binary digits, a tie
going to the even significand. An integer that is a double is returned as it
is. The bound on the exponent of a double (numbers from 2^1024 on) is not
modelled. -/
def nearestDouble (n : Nat) : Nat :=
  let e := log2 n
  if e ≤ 52 then n
  else
    let ulp := 2 ^ (e - 52)
    let q := n / ulp
    let r := n % ulp
    if 2 * r < ulp ∨ (2 * r = ulp ∧ q % 2 = 0) then q * ulp else (q + 1) * ulp

/-- Whether the integer `v` reads back as the double `x`, for `x` from 2^53 on:
`v` lies between the midpoints to the two neighbours of `x`, the midpoints
included when the significand of `x` is even. Both sides are doubled so that a
midpoint is an integer. -/
def readsAs (x v : Nat) : Bool :=
  let e := log2 x
  let ulp := 2 ^ (e - 52)
  let below := if x = 2 ^ e then ulp / 2 else ulp
  if (x / ulp) % 2 = 0 then decide (2 * x - below ≤ 2 * v ∧ 2 * v ≤ 2 * x + ulp)
  else decide (2 * x - below < 2 * v ∧ 2 * v < 2 * x + ulp)

/-- The decimal with the fewest significant digits that reads back as the
double `x`: for `j + 1` trailing zeros, then `j`, and so on down to none, the
two multiples of the power of ten next to `x` are tried; of two that both read
back the nearer one is taken, and of two equally near the one with the even
last digit. -/
def shortestDecimal (x : Nat) : Nat → Nat
  | 0 => x
  | j + 1 =>
    let p := 10 ^ (j + 1)
    let low := x / p * p
    let high := low + p
    if readsAs x low then
      if readsAs x high ∧ (high - x < x - low ∨ (high - x = x - low ∧ (x / p) % 2 = 1)) then high
      else low
    else if readsAs x high then high
    else shortestDecimal x j

/-- The exponent form of a number from 10^21 on: the first digit, a point and
the other significant digits when there are any, then `e+` and the exponent. -/
def exponentForm (v : Nat) : String :=
  let digits := Nat.toDigits 10 v
  let exponent := Nat.toDigits 10 (digits.length - 1)
  match (digits.reverse.dropWhile (fun c => c == '0')).reverse with
  | [] => ⟨'0' :: 'e' :: '+' :: exponent⟩
  | [d] => ⟨d :: 'e' :: '+' :: exponent⟩
  | d :: rest => ⟨d :: '.' :: rest ++ 'e' :: '+' :: exponent⟩

/-- The text of a natural number: its digits below 2^53; from there on the
shortest decimal of its double, in full below 10^21 (`2 ** 60` prints as
`1152921504606847000`) and in exponent form otherwise (`1e+21`). -/
def natToString (n : Nat) : String :=
  if n < 9007199254740992 then toString n
  else
    let x := nearestDouble n
    let v := shortestDecimal x ((Nat.toDigits 10 x).length - 1)
    if v < 1000000000000000000000 then toString v else exponentForm v

/-- The text of an integer number in a template literal or under `String`. -/
def numToString : Int → String
  | Int.ofNat m => natToString m
  | Int.negSucc m => "-" ++ natToString (m + 1)

/-- A JavaScript number that is not an integer: `NaN`, an infinity, or a finite
number with a fractional part, written `(2 * a + 1) / 2 ^ (k + 1)` (2.5 is
`a = 2`, `k = 0`; every finite number that is not an integer has this form). -/
inductive NonInteger where
  | nan
  | infinity (negative : Bool)
  | fraction (a : Int) (k : Nat)

/-- The value of `options.limit`: a value of `JsVal`, whose numbers are the
integers, or a number that is not an integer. -/
inductive LimitValue where
  | js (v : JsVal)
  | nonInteger (x : NonInteger)

/-- Truthiness of a limit: of the numbers, 0 and `NaN` are falsy. -/
def LimitValue.truthy : LimitValue → Bool
  | LimitValue.js v => v.truthy
  | LimitValue.nonInteger NonInteger.nan => false
  | LimitValue.nonInteger _ => true

/-- The test `Number.isInteger(limit)`: true of the integer numbers, false of
every other number and of every value that is not a number. -/
def Number.isInteger : LimitValue → Bool
  | LimitValue.js (JsVal.num _) => true
  | _ => false

/-- The options object of `serviciosAPI.getAll`, with the defaults of the
destructuring at line 1183. -/
structure GetAllOptions where
  includeAll : Bool := false
  limit : LimitValue := LimitValue.js JsVal.null
  ttl : Int := 120000

namespace serviciosAPI

/-- The url built at lines 1185-1194 of `serviciosAPI.getAll`. The third test
of line 1190, `limit > 0`, and the text of the limit are reached for integers
only. -/
def getAllUrl (options : GetAllOptions) : String :=
  let limit := options.limit
  let params : List String :=
    (if !options.includeAll then ["available=true", "status=active"] else [])
    ++ (if limit.truthy && Number.isInteger limit then
          match limit with
          | LimitValue.js (JsVal.num n) => if 0 < n then ["limit=" ++ numToString n] else []
          | _ => []
        else [])
  if params.length ≠ 0 then ENDPOINTS.SERVICES ++ "?" ++ "&".intercalate params
  else ENDPOINTS.SERVICES

/-- The read `serviciosAPI.getAll(options)` up to its `await cachedGet(url, ttl)`. -/
def getAll (caller : Nat) (options : GetAllOptions) (now : Int) (w : World) : World :=
  cachedGet caller (getAllUrl options) options.ttl now w

/-- The write `serviciosAPI.update(id, servicioData)`: `PATCH /service/{id}`. -/
def update (id : String) (w : World) : World :=
  apiWrite "patch" (ENDPOINTS.SERVICES ++ "/" ++ id) w

/-- The write `serviciosAPI.delete(id)`: `DELETE /service/{id}`. -/
def delete (id : String) (w : World) : World :=
  apiWrite "delete" (ENDPOINTS.SERVICES ++ "/" ++ id) w

end serviciosAPI

namespace usuariosAPI

/-- The read `usuariosAPI.getAll()` up to its `await cachedGet(ENDPOINTS.USERS)`. -/
def getAll (caller : Nat) (now : Int) (w : World) : World :=
  cachedGet caller ENDPOINTS.USERS 120000 now w

/-- The write `usuariosAPI.update(id, userData)`: `PATCH /user/{id}`. -/
def update (id : String) (w : World) : World :=
  apiWrite "patch" (ENDPOINTS.USERS ++ "/" ++ id) w

/-- The write `usuariosAPI.delete(id)`: `DELETE /user/{id}`. -/
def delete (id : String) (w : World) : World :=
  apiWrite "delete" (ENDPOINTS.USERS ++ "/" ++ id) w

end usuariosAPI

namespace blogsAPI

/-- The read `blogsAPI.getAll()` up to its `await cachedGet(ENDPOINTS.BLOGS)`. -/
def getAll (caller : Nat) (now : Int) (w : World) : World :=
  cachedGet caller ENDPOINTS.BLOGS 120000 now w

/-- The write `blogsAPI.update(id, blogData)`: `PATCH /blog/{id}`. -/
def update (id : String) (w : World) : World :=
  apiWrite "patch" (ENDPOINTS.BLOGS ++ "/" ++ id) w

/-- The write `blogsAPI.delete(id)`: `DELETE /blog/{id}`. -/
def delete (id : String) (w : World) : World :=
  apiWrite "delete" (ENDPOINTS.BLOGS ++ "/" ++ id) w

end blogsAPI

/-! ## Shape normalisers (`mapServiceFromXano`, `mapBlogFromXano`) -/

/-- The expression `o.url || o.file?.url || o.file_url || o.fileUrl || last`,
evaluated left to right with the short circuit of `||`. -/
def urlChain (o last : JsVal) : Except JsError JsVal := do
  let a ← o.getProp "url"
  if a.truthy then pure a else
  let f ← o.getProp "file"
  let b := f.optProp "url"
  if b.truthy then pure b else
  let c ← o.getProp "file_url"
  if c.truthy then pure c else
  let d ← o.getProp "fileUrl"
  if d.truthy then pure d else
  pure last

/-- The inner function `extractImageUrl` of `mapServiceFromXano` (lines 681-697). -/
def mapServiceFromXano.extractImageUrl (field : JsVal) : Except JsError JsVal :=
  if !field.truthy then pure JsVal.null
  else if field.isString then pure field
  else
    match field with
    | JsVal.arr (first :: _) =>
      if !first.truthy then pure JsVal.null
      else if first.isString then pure first
      else urlChain first JsVal.null
    | _ =>
      if field.typeofObject then urlChain field JsVal.null
      else pure JsVal.null

/-- The value `normalizedImage = extractImageUrl(rawImage) || ''` of
`mapServiceFromXano` (line 701). -/
def mapServiceFromXano.normalizedImage (rawImage : JsVal) : Except JsError JsVal := do
  let r ← mapServiceFromXano.extractImageUrl rawImage
  pure (r.or (JsVal.str ""))

/-- The normaliser `mapServiceFromXano` (lines 678-725). Every property of the
record is read with `getProp`; the operands of `??` and `||` are read before
they are combined, which changes nothing because a read of `xanoService.k`
throws for every `k` or for none. -/
def mapServiceFromXano (xanoService : JsVal) : Except JsError JsVal :=
  if !xanoService.truthy then pure JsVal.null else do
  let image_url ← xanoService.getProp "image_url"
  let image ← xanoService.getProp "image"
  let image_file ← xanoService.getProp "image_file"
  let file ← xanoService.getProp "file"
  let rawImage := (((image_url.coalesce image).coalesce image_file).coalesce file).coalesce
    JsVal.null
  let normalizedImage ← mapServiceFromXano.normalizedImage rawImage
  let id ← xanoService.getProp "id"
  let name ← xanoService.getProp "name"
  let description ← xanoService.getProp "description"
  let price ← xanoService.getProp "price"
  let category ← xanoService.getProp "category"
  let provider ← xanoService.getProp "provider"
  let availability ← xanoService.getProp "availability"
  let rating ← xanoService.getProp "rating"
  let num_ratings ← xanoService.getProp "num_ratings"
  let available ← xanoService.getProp "available"
  let status ← xanoService.getProp "status"
  let user_id ← xanoService.getProp "user_id"
  let service_category_id ← xanoService.getProp "service_category_id"
  let service_category ← xanoService.getProp "service_category"
  let created_at ← xanoService.getProp "created_at"
  pure (JsVal.obj [
    ("id", id),
    ("nombre", name),
    ("descripcion", description),
    ("precio", price),
    ("categoria", category),
    ("proveedor", provider),
    ("disponibilidad", availability),
    ("imagen_url", normalizedImage),
    ("imagen", normalizedImage),
    ("valoracion", rating),
    ("num_valoraciones", num_ratings),
    ("numValoraciones", num_ratings),
    ("disponible", available),
    ("estado", status),
    ("creado_por", user_id),
    ("service_category_id", (service_category_id.or service_category).or JsVal.null),
    ("creado_en", created_at)])

/-- The inner function `extractImageUrl` of `mapBlogFromXano` (lines 775-788). -/
def mapBlogFromXano.extractImageUrl (field : JsVal) : Except JsError JsVal :=
  if !field.truthy then pure (JsVal.str "")
  else if field.isString then pure field
  else
    match field with
    | JsVal.arr (first :: _) =>
      if !first.truthy then pure (JsVal.str "")
      else if first.isString then pure first
      else urlChain first (JsVal.str "")
    | _ =>
      if field.typeofObject then urlChain field (JsVal.str "")
      else pure (JsVal.str "")

/-- The value `normalizedImage = extractImageUrl(rawImage) || ''` of
`mapBlogFromXano` (line 791). -/
def mapBlogFromXano.normalizedImage (rawImage : JsVal) : Except JsError JsVal := do
  let r ← mapBlogFromXano.extractImageUrl rawImage
  pure (r.or (JsVal.str ""))

/-! ### The image resolution as the specification words it -/

/-- The first non-empty value of a list of candidates, and `''` if there is
none. A candidate is non-empty when `||` does not skip it (absent, `null` and
`''` are empty, as are `0` and `false`). -/
def specFirstNonEmpty : List JsVal → JsVal
  | [] => JsVal.str ""
  | v :: rest => if v.truthy then v else specFirstNonEmpty rest

/-- Object extraction: try, in order, `url`, `file.url`, `file_url`, `fileUrl`. -/
def specExtractObject (o : JsVal) : JsVal :=
  specFirstNonEmpty
    [o.optProp "url", (o.optProp "file").optProp "url", o.optProp "file_url", o.optProp "fileUrl"]

/-- Single-element resolution: a string is passed through, an object goes
through the ordered extraction, anything else has no image. -/
def specResolveElement : JsVal → JsVal
  | JsVal.str s => JsVal.str s
  | JsVal.obj fields => specExtractObject (JsVal.obj fields)
  | _ => JsVal.str ""

/-- Array resolution: the resolution of the first element (`''` without one). -/
def specResolveArray : List JsVal → JsVal
  | [] => JsVal.str ""
  | first :: _ => specResolveElement first

/-! ## More of the JavaScript value model -/

namespace JsVal

/-- Test `v === undefined`. -/
def isUndefined : JsVal → Bool
  | undefined => true
  | _ => false

/-- Test `v === null || v === undefined`. -/
def isNullish : JsVal → Bool
  | undefined => true
  | null => true
  | _ => false

/-- Test `typeof v === 'number'`. -/
def isNumber : JsVal → Bool
  | num _ => true
  | _ => false

/-- Test `typeof v === 'boolean'`. -/
def isBoolean : JsVal → Bool
  | bool _ => true
  | _ => false

/-- Strict equality with a number literal, `v === n`. -/
def strictEqNum (v : JsVal) (n : Int) : Bool :=
  match v with
  | num m => m == n
  | _ => false

/-- Strict equality with a string literal, `v === 'text'`. -/
def strictEqStr (v : JsVal) (text : String) : Bool :=
  match v with
  | str s => s == text
  | _ => false

end JsVal

/-- The white space and line terminator characters that `String.prototype.trim`
removes. -/
def isJsWhitespace (c : Char) : Bool :=
  [0x09, 0x0A, 0x0B, 0x0C, 0x0D, 0x20, 0xA0, 0x1680, 0x2028, 0x2029, 0x202F, 0x205F, 0x3000,
    0xFEFF].contains c.toNat
  || (0x2000 ≤ c.toNat && c.toNat ≤ 0x200A)

/-- The string method `trim`: the text without its leading and trailing white space. -/
def jsTrim (s : String) : String :=
  ⟨((s.data.dropWhile isJsWhitespace).reverse.dropWhile isJsWhitespace).reverse⟩

/-- The method call `v.trim()` on a value that the guard before it has found to
be a string. -/
def JsVal.trim : JsVal → JsVal
  | JsVal.str s => JsVal.str (jsTrim s)
  | v => v

mutual
/-- The conversion `String(v)`, which is also what a template literal applies:
`Array.prototype.join` for an array, `[object Object]` for a plain object. -/
def jsString : JsVal → String
  | JsVal.undefined => "undefined"
  | JsVal.null => "null"
  | JsVal.bool b => if b then "true" else "false"
  | JsVal.num n => numToString n
  | JsVal.str s => s
  | JsVal.arr xs => jsJoin xs
  | JsVal.obj _ => "[object Object]"
termination_by structural v => v
/-- The method `join(',')` of an array: `null` and `undefined` elements give the
empty text. -/
def jsJoin : List JsVal → String
  | [] => ""
  | x :: rest =>
    (match x with
      | JsVal.undefined => ""
      | JsVal.null => ""
      | v => jsString v)
    ++ (match rest with
      | [] => ""
      | _ => ",")
    ++ jsJoin rest
termination_by structural xs => xs
end

/-- Assignment `o.k = v` on a plain object: the property keeps its place when it
exists and is added at the end otherwise. -/
def setField (k : String) (v : JsVal) : List (String × JsVal) → List (String × JsVal)
  | [] => [(k, v)]
  | (k', v') :: rest => if k' = k then (k, v) :: rest else (k', v') :: setField k v rest


/-! ## User normalisers (`mapUserFromXano`, `mapUserToXano`, lines 606-668) -/

/-- The normaliser `mapUserFromXano` (lines 606-625). -/
def mapUserFromXano (xanoUser : JsVal) : Except JsError JsVal :=
  if !xanoUser.truthy then pure JsVal.null else do
  let id ← xanoUser.getProp "id"
  let name ← xanoUser.getProp "name"
  let last_name ← xanoUser.getProp "last_name"
  let email ← xanoUser.getProp "email"
  let phone ← xanoUser.getProp "phone"
  let role_id ← xanoUser.getProp "role_id"
  let password_hash ← xanoUser.getProp "password_hash"
  let password ← xanoUser.getProp "password"
  let created_at ← xanoUser.getProp "created_at"
  pure (JsVal.obj [
    ("id", id),
    ("nombre", name),
    ("apellidos", last_name),
    ("email", email),
    ("telefono", phone.or (JsVal.str "")),
    ("role_id", role_id),
    ("rol_id", role_id),
    ("rol", if role_id.strictEqNum 2 then JsVal.str "admin" else JsVal.str "cliente"),
    ("password_hash", password_hash),
    ("password", password),
    ("creado_en", created_at),
    ("fechaRegistro", created_at)])

/-- The normaliser `mapUserToXano` (lines 629-668). The object `xanoData` starts
as `{ name: "", last_name: "", email: "", password: "", role_id: 1 }`; each
guarded assignment replaces one value, and `phone` is added only when
`telefono` is a non-empty string. -/
def mapUserToXano (frontendUser : JsVal) : Except JsError JsVal := do
  let nombre ← frontendUser.getProp "nombre"
  let name := if nombre.truthy && nombre.isString then nombre.trim else JsVal.str ""
  let apellidos ← frontendUser.getProp "apellidos"
  let last_name := if apellidos.truthy && apellidos.isString then apellidos.trim else JsVal.str ""
  let email0 ← frontendUser.getProp "email"
  let email := if email0.truthy && email0.isString then email0.trim else JsVal.str ""
  let password0 ← frontendUser.getProp "password"
  let password := if password0.truthy && password0.isString then password0 else JsVal.str ""
  let rol ← frontendUser.getProp "rol"
  let role_id : Int := if rol.truthy then (if rol.strictEqStr "admin" then 2 else 1) else 1
  let telefono ← frontendUser.getProp "telefono"
  let phone : List (String × JsVal) :=
    if telefono.truthy && telefono.isString then [("phone", telefono.trim)] else []
  pure (JsVal.obj ([
    ("name", name),
    ("last_name", last_name),
    ("email", email),
    ("password", password),
    ("role_id", JsVal.num role_id)] ++ phone))

/-- An error thrown by a facade before or instead of its request: a JavaScript
exception of the code it runs, or `new Error(text)`. -/
inductive FacadeError where
  | js (e : JsError)
  | message (text : String)
  deriving DecidableEq, Repr

/-- Assignment `o.k = v` on a value that is a plain object. -/
def JsVal.assign (o : JsVal) (k : String) (v : JsVal) : JsVal :=
  match o with
  | JsVal.obj fields => JsVal.obj (setField k v fields)
  | w => w

namespace usuariosAPI

/-- The body that `usuariosAPI.update(id, userData)` sends with its PATCH
(lines 934-940): `mapUserToXano(userData)`. -/
def updateBody (userData : JsVal) : Except FacadeError JsVal :=
  match mapUserToXano userData with
  | Except.ok dataToSend => Except.ok dataToSend
  | Except.error e => Except.error (FacadeError.js e)

/-- The body that `usuariosAPI.create(userData)` sends with its POST
(lines 887-914): the required fields are checked, the payload is
`mapUserToXano(userData)`, and a truthy `userData.password` is copied into it. -/
def createBody (userData : JsVal) : Except FacadeError JsVal :=
  match userData.getProp "nombre", userData.getProp "apellidos", userData.getProp "email",
      userData.getProp "password" with
  | Except.ok nombre, Except.ok apellidos, Except.ok email, Except.ok password =>
    if !nombre.truthy || !apellidos.truthy || !email.truthy || !password.truthy then
      Except.error
        (FacadeError.message "Faltan campos obligatorios: nombre, apellidos, email, password")
    else
      match mapUserToXano userData with
      | Except.ok dataToSend =>
        Except.ok (if password.truthy then dataToSend.assign "password" password else dataToSend)
      | Except.error e => Except.error (FacadeError.js e)
  | _, _, _, _ => Except.error (FacadeError.js JsError.typeError)

end usuariosAPI

/-- The payload that `register` of `AuthContext.jsx` (line 145) passes to
`usuariosAPI.create`: `{ ...userData, role_id: userData.role_id || 1 }`, for a
form object `userData` with the given properties. -/
def AuthContext.registerPayload (userData : List (String × JsVal)) : JsVal :=
  JsVal.obj (setField "role_id" ((JsVal.lookupField "role_id" userData).or (JsVal.num 1)) userData)

/-- The update object of `fixAdminRole` (lines 1817-1819): `{ role_id: 2 }`. -/
def fixAdminRole.updateData : JsVal := JsVal.obj [("role_id", JsVal.num 2)]

/-! ## Blog normaliser (`mapBlogFromXano`, lines 772-811) -/

/-- The value `rawImage` of `mapServiceFromXano` (line 700), for a record that
is not nullish. -/
def mapServiceFromXano.rawImage (xanoService : JsVal) : JsVal :=
  ((((xanoService.optProp "image_url").coalesce (xanoService.optProp "image")).coalesce
    (xanoService.optProp "image_file")).coalesce (xanoService.optProp "file")).coalesce JsVal.null

/-- The value `rawImage` of `mapBlogFromXano` (line 790), for a record that is
not nullish. -/
def mapBlogFromXano.rawImage (xanoBlog : JsVal) : JsVal :=
  (((xanoBlog.optProp "image_url").coalesce (xanoBlog.optProp "image")).coalesce
    (xanoBlog.optProp "image_file")).coalesce JsVal.null

/-- The normaliser `mapBlogFromXano` (lines 772-811). -/
def mapBlogFromXano (xanoBlog : JsVal) : Except JsError JsVal :=
  if !xanoBlog.truthy then pure JsVal.null else do
  let image_url ← xanoBlog.getProp "image_url"
  let image ← xanoBlog.getProp "image"
  let image_file ← xanoBlog.getProp "image_file"
  let rawImage := ((image_url.coalesce image).coalesce image_file).coalesce JsVal.null
  let normalizedImage ← mapBlogFromXano.normalizedImage rawImage
  let id ← xanoBlog.getProp "id"
  let title ← xanoBlog.getProp "title"
  let content ← xanoBlog.getProp "content"
  let category ← xanoBlog.getProp "category"
  let publication_date ← xanoBlog.getProp "publication_date"
  let status ← xanoBlog.getProp "status"
  let user_id ← xanoBlog.getProp "user_id"
  let created_at ← xanoBlog.getProp "created_at"
  pure (JsVal.obj [
    ("id", id),
    ("titulo", title),
    ("contenido", content),
    ("categoria", category),
    ("imagen_url", normalizedImage),
    ("image_url", normalizedImage),
    ("imagen", normalizedImage),
    ("fecha_publicacion", publication_date),
    ("estado", status),
    ("autor_id", user_id),
    ("creado_en", created_at),
    ("fecha", publication_date),
    ("autor", JsVal.str ("Usuario " ++ jsString user_id))])


/-! ## Category normalisers of the pages

The built-in `JSON.stringify` is a parameter `stringify`: on the arrays and
plain objects of JSON data it returns a text and does not throw, so the
`catch` branch of `Blog.jsx` is never entered. The property reads stand behind
the test `typeof c === 'object'` on a value that is not `null`, so they cannot
throw. -/

/-- The function `normalize` of `cargarBlogs` in `Blog.jsx` (lines 70-83). -/
def Blog.normalize (stringify : JsVal → String) (c : JsVal) : JsVal :=
  if c.isNullish then JsVal.str ""
  else if c.isString then c
  else if c.isNumber || c.isBoolean then JsVal.str (jsString c)
  else if c.typeofObject then
    if (c.optProp "name").truthy then c.optProp "name"
    else if (c.optProp "nombre").truthy then c.optProp "nombre"
    else if (c.optProp "category").truthy then c.optProp "category"
    else if !(c.optProp "id").isUndefined then JsVal.str (jsString (c.optProp "id"))
    else JsVal.str (stringify c)
  else JsVal.str (jsString c)

/-- The function `normalize` of `cargarDatos` in `Servicios.jsx` (lines 46-52). -/
def Servicios.normalize (stringify : JsVal → String) (c : JsVal) : JsVal :=
  if c.isNullish then JsVal.str ""
  else if c.isString then c
  else if c.isNumber || c.isBoolean then JsVal.str (jsString c)
  else if c.typeofObject then
    (((c.optProp "name").or (c.optProp "nombre")).or (c.optProp "category")).or
      (if !(c.optProp "id").isUndefined then JsVal.str (jsString (c.optProp "id"))
       else JsVal.str (stringify c))
  else JsVal.str (jsString c)

/-- The function `normalizeCat` of `cargarDatos` in `Admin.jsx` (lines 81-87). -/
def Admin.normalizeCat (stringify : JsVal → String) (c : JsVal) : JsVal :=
  if c.isNullish then JsVal.str ""
  else if c.isString then c
  else if c.isNumber || c.isBoolean then JsVal.str (jsString c)
  else if c.typeofObject then
    (((c.optProp "name").or (c.optProp "nombre")).or (c.optProp "category")).or
      (if !(c.optProp "id").isUndefined then JsVal.str (jsString (c.optProp "id"))
       else JsVal.str (stringify c))
  else JsVal.str (jsString c)

/-! ### The category normalisation as the specification words it -/

/-- The first present value of a list of candidates, if there is one. A
candidate is present when it holds a usable value, that is one that the test
`if (c.name)` accepts: an absent property, `null`, `''`, `0` and `false` are
not. -/
def specFirstPresent : List JsVal → Option JsVal
  | [] => none
  | v :: rest => if v.truthy then some v else specFirstPresent rest

/-- The string form of a number or boolean. -/
def specStringForm : JsVal → String
  | JsVal.num n => numToString n
  | JsVal.bool true => "true"
  | JsVal.bool false => "false"
  | v => jsString v

/-- Category normalisation: `null` and `undefined` give `""`; a string gives
itself; a number or boolean gives its string form; an object gives the first
present of `name`, `nombre`, `category`, else the string form of its `id`, else
its JSON text. -/
def specNormalizeCategory (stringify : JsVal → String) : JsVal → JsVal
  | JsVal.null => JsVal.str ""
  | JsVal.undefined => JsVal.str ""
  | JsVal.str s => JsVal.str s
  | JsVal.num n => JsVal.str (specStringForm (JsVal.num n))
  | JsVal.bool b => JsVal.str (specStringForm (JsVal.bool b))
  | c =>
    match specFirstPresent [c.optProp "name", c.optProp "nombre", c.optProp "category"] with
    | some v => v
    | none =>
      match c.optProp "id" with
      | JsVal.undefined => JsVal.str (stringify c)
      | id => JsVal.str (specStringForm id)

/-! ## Predicates and sample data used in the statements -/

/-- The text `part` occurs in the text `s`. -/
def occursIn (part s : String) : Prop := part.data <:+: s.data

/-- The inputs that the specification lists for image normalisation. -/
def listedImages : List JsVal :=
  [JsVal.undefined, JsVal.null, JsVal.str "", JsVal.str "http://x",
    JsVal.arr [JsVal.str "http://x"], JsVal.arr [JsVal.obj [("url", JsVal.str "http://x")]],
    JsVal.obj [("url", JsVal.str "http://x")],
    JsVal.obj [("file", JsVal.obj [("url", JsVal.str "http://x")])],
    JsVal.obj [], JsVal.arr []]

/-- A text field of a remote record: a string, or nothing usable (absent,
`null`, or another falsy value). -/
def textOrEmpty (v : JsVal) : Prop := v.isString = true ∨ v.truthy = false

/-- A remote category as the data model describes it: a string that is not
empty, a number, or an object `{ id, name | nombre | category }` whose `id` is a
number and whose `name`, `nombre` and `category` are text fields. -/
def RemoteCategory (c : JsVal) : Prop :=
  (∃ s : String, c = JsVal.str s ∧ s ≠ "")
  ∨ (∃ n : Int, c = JsVal.num n)
  ∨ (∃ (fields : List (String × JsVal)) (n : Int),
      c = JsVal.obj fields ∧ JsVal.lookupField "id" fields = JsVal.num n
      ∧ textOrEmpty (JsVal.lookupField "name" fields)
      ∧ textOrEmpty (JsVal.lookupField "nombre" fields)
      ∧ textOrEmpty (JsVal.lookupField "category" fields))


/-- The function `normalize` of `cargarCategorias` in `CrearBlog.jsx` (lines 46-54). -/
def CrearBlog.normalize (stringify : JsVal → String) (c : JsVal) : JsVal :=
  if c.isNullish then JsVal.str ""
  else if c.isString then c
  else if c.isNumber || c.isBoolean then JsVal.str (jsString c)
  else if c.typeofObject then
    (((c.optProp "name").or (c.optProp "nombre")).or (c.optProp "category")).or
      (if !(c.optProp "id").isUndefined then JsVal.str (jsString (c.optProp "id"))
       else JsVal.str (stringify c))
  else JsVal.str (jsString c)


/-! ## Requests with a multipart body and the upload helper -/

/-- What a facade throws: the error of a failed request, a JavaScript exception
of the code it runs, or `new Error(text)`. -/
inductive Thrown where
  | axios (err : AxiosError)
  | js (e : JsError)
  | message (text : String)
  deriving DecidableEq, Repr

/-- A value held by a `FormData`: a text or a file (named). -/
inductive FormValue where
  | text (s : String)
  | file (name : String)
  deriving DecidableEq, Repr

/-- The body of a request: a plain object sent as JSON, or a `FormData`. -/
inductive Body where
  | json (data : JsVal)
  | formData (entries : List (String × FormValue))

/-- The options object that a call site passes to `api.post` as third argument:
its `timeout` and its `headers`, both empty when the argument or the property
is absent. -/
structure RequestOptions where
  timeout : Option Nat
  headers : List (String × String)
  deriving DecidableEq, Repr

/-- A request as a call site issues it. -/
structure HttpRequest where
  method : String
  url : String
  body : Body
  options : RequestOptions

/-- The method `formData.get(name)`: the first value of that name, if any. -/
def formDataGet (name : String) : List (String × FormValue) → Option FormValue
  | [] => none
  | (k, v) :: rest => if k = name then some v else formDataGet name rest

/-- The request of `uploadImageToXano(file)` (lines 548-563); `file` is `none`
when the argument is missing. -/
def uploadImageToXano.request (file : Option String) : Except Thrown HttpRequest :=
  match file with
  | none => Except.error (Thrown.message "No se proporcionó archivo")
  | some name =>
    Except.ok
      { method := "post", url := "/file", body := Body.formData [("file", FormValue.file name)],
        options := { timeout := some 30000, headers := [] } }

/-- The request of `serviciosAPI.create(servicioData)` when `servicioData` is a
`FormData` (lines 1223-1227). -/
def serviciosAPI.createMultipartRequest (servicioData : List (String × FormValue)) :
    HttpRequest :=
  { method := "post", url := ENDPOINTS.SERVICES, body := Body.formData servicioData,
    options := { timeout := none, headers := [("Content-Type", "multipart/form-data")] } }

/-- The text `(blogData.get(name) || '').toString().trim()` of the form check in
`blogsAPI.create`. -/
def blogsAPI.formText (name : String) (blogData : List (String × FormValue)) : String :=
  match formDataGet name blogData with
  | some (FormValue.text s) => jsTrim s
  | some (FormValue.file _) => jsTrim "[object File]"
  | none => jsTrim ""

/-- The request of `blogsAPI.create(blogData)` when `blogData` is a `FormData`
(lines 1315-1339): `title` and `content` must not be blank. -/
def blogsAPI.createMultipartRequest (blogData : List (String × FormValue)) :
    Except Thrown HttpRequest :=
  if blogsAPI.formText "title" blogData = "" ∨ blogsAPI.formText "content" blogData = "" then
    Except.error (Thrown.message
      "Validación: title y content son requeridos antes de enviar el formulario. Revisa tu formulario.")
  else
    Except.ok
      { method := "post", url := ENDPOINTS.BLOGS, body := Body.formData blogData,
        options := { timeout := none, headers := [] } }

/-- The reading of a successful upload response `data` (lines 566-575). -/
def uploadImageToXano.parse (data : JsVal) : Except Thrown JsVal :=
  let possibleUrl :=
    (((data.optProp "url").or ((data.optProp "file").optProp "url")).or
      (data.optProp "file_url")).or (data.optProp "fileUrl")
  if !possibleUrl.truthy then
    match data with
    | JsVal.arr (first :: _) =>
      match first.getProp "url" with
      | Except.error e => Except.error (Thrown.js e)
      | Except.ok u =>
        if u.truthy then Except.ok u
        else Except.error
          (Thrown.message "La respuesta del servidor no contiene URL pública de la imagen")
    | _ =>
      Except.error (Thrown.message "La respuesta del servidor no contiene URL pública de la imagen")
  else Except.ok possibleUrl

/-- The helper `uploadImageToXano(file)` (lines 548-582), for an upload request
that settles with `outcome`; the `catch` block logs and rethrows. -/
def uploadImageToXano (file : Option String) (outcome : Except AxiosError JsVal) :
    Except Thrown JsVal :=
  match uploadImageToXano.request file with
  | Except.error e => Except.error e
  | Except.ok _ =>
    match outcome with
    | Except.error err => Except.error (Thrown.axios err)
    | Except.ok data => uploadImageToXano.parse data

/-- The url of an upload response as the operation finds it: the first non-empty
of `url`, `file.url`, `file_url`, `fileUrl`; failing that, the `url` of the first
element when the response is an array. -/
def specUploadUrl (data : JsVal) : Option JsVal :=
  match specFirstPresent
      [data.optProp "url", (data.optProp "file").optProp "url", data.optProp "file_url",
        data.optProp "fileUrl"] with
  | some u => some u
  | none =>
    match data with
    | JsVal.arr (first :: _) => specFirstPresent [first.optProp "url"]
    | _ => none

/-- The url of an upload response as the specification words it: the first
non-empty of `url`, `file.url`, `file_url`, `fileUrl`, or of the same four fields
of the first element when the response is an array. -/
def specUploadUrlAllFields (data : JsVal) : Option JsVal :=
  match specFirstPresent
      [data.optProp "url", (data.optProp "file").optProp "url", data.optProp "file_url",
        data.optProp "fileUrl"] with
  | some u => some u
  | none =>
    match data with
    | JsVal.arr (first :: _) =>
      specFirstPresent
        [first.optProp "url", (first.optProp "file").optProp "url", first.optProp "file_url",
          first.optProp "fileUrl"]
    | _ => none


/-! ## The bearer credential (`tokenUtils`, `authAPI.login`, `AuthContext`) -/

/-- The `Authorization` entry of `api.defaults.headers.common` and of
`authApiInstance.defaults.headers.common`; `none` when the entry is absent. -/
structure AuthHeaders where
  api : Option String
  auth : Option String
  deriving DecidableEq, Repr

/-- The headers right after the two clients are created (lines 40-55). -/
def AuthHeaders.init : AuthHeaders := { api := none, auth := none }

/-- The method `tokenUtils.setAuthToken(token)` (lines 1672-1679). -/
def tokenUtils.setAuthToken (token : JsVal) (h : AuthHeaders) : AuthHeaders :=
  if token.truthy then
    { api := some ("Bearer " ++ jsString token), auth := some ("Bearer " ++ jsString token) }
  else h

/-- The method `tokenUtils.clearAuthToken()` (lines 1682-1686). -/
def tokenUtils.clearAuthToken (_h : AuthHeaders) : AuthHeaders := { api := none, auth := none }

/-- Logical and `a && b`. -/
def JsVal.and (a b : JsVal) : JsVal := if a.truthy then b else a

/-- The element `raw[0]` of an array (`undefined` when there is none); only read
behind `Array.isArray(raw)`. -/
def JsVal.first : JsVal → JsVal
  | JsVal.arr (x :: _) => x
  | _ => JsVal.undefined

/-- The token expression of `authAPI.login` (line 1007). -/
def authAPI.login.token (raw : JsVal) : JsVal :=
  (((((raw.optProp "authToken").or (raw.optProp "token")).or (raw.optProp "accessToken")).or
    ((raw.optProp "data").optProp "authToken")).or ((raw.optProp "data").optProp "token")).or
    (((JsVal.bool raw.isArray).and raw.first).and
      (((raw.first.optProp "authToken").or (raw.first.optProp "token")).or
        (raw.first.optProp "accessToken")))

/-- The call `authAPI.login(email, password)` (lines 989-1036) whose request to
`/auth/login` settles with `outcome`, acting on the headers: the entry of the
auth client is deleted before the request; a token found in the response is set
on both clients; the response data is returned, an error is rethrown. -/
def authAPI.login (outcome : Except AxiosError JsVal) (h : AuthHeaders) :
    Except Thrown JsVal × AuthHeaders :=
  let h1 : AuthHeaders := { h with auth := none }
  match outcome with
  | Except.error err => (Except.error (Thrown.axios err), h1)
  | Except.ok raw =>
    let token := authAPI.login.token raw
    if token.truthy then
      (Except.ok raw,
        { api := some ("Bearer " ++ jsString token), auth := some ("Bearer " ++ jsString token) })
    else (Except.ok raw, h1)

/-- The expression `possibleToken` of `login` and of `register` in
`AuthContext.jsx` (lines 97 and 160), on the value that `authAPI.login` returned. -/
def AuthContext.possibleToken (authResp : JsVal) : JsVal :=
  (((((authResp.optProp "authToken").or (authResp.optProp "token")).or
    (authResp.optProp "access_token")).or ((authResp.optProp "data").optProp "authToken")).or
    ((authResp.optProp "data").optProp "token")).or
    (((JsVal.bool authResp.isArray).and authResp.first).and
      ((authResp.first.optProp "authToken").or (authResp.first.optProp "token")))

/-- An operation on the credential: the two methods of `tokenUtils`, and a call
of `authAPI.login` with the outcome of its request. -/
inductive AuthOp where
  | setAuthToken (token : JsVal)
  | clearAuthToken
  | login (outcome : Except AxiosError JsVal)

/-- The effect of one operation on the headers. -/
def AuthOp.run (h : AuthHeaders) : AuthOp → AuthHeaders
  | AuthOp.setAuthToken token => tokenUtils.setAuthToken token h
  | AuthOp.clearAuthToken => tokenUtils.clearAuthToken h
  | AuthOp.login outcome => (authAPI.login outcome h).2

/-- The effect of a sequence of operations, in order. -/
def AuthOp.runAll (ops : List AuthOp) (h : AuthHeaders) : AuthHeaders :=
  ops.foldl AuthOp.run h

/-- The token that `login` and `register` of `AuthContext.jsx` store under
`ambienteFestToken` (lines 98-101 and 161-165): `possibleToken` when it is
truthy, nothing otherwise. -/
def AuthContext.storedToken (authResp : JsVal) : Option JsVal :=
  if (AuthContext.possibleToken authResp).truthy then some (AuthContext.possibleToken authResp)
  else none

/-- The token that `authAPI.login` configures on the clients, if any. -/
def authAPI.login.configuredToken (raw : JsVal) : Option JsVal :=
  if (authAPI.login.token raw).truthy then some (authAPI.login.token raw) else none


/-! ## Reads of the facades: what a read resolves or rejects with -/

/-- The expression `(data || []).map(f)` of the list reads: a `TypeError` when the
value is not an array (it has no method `map`), the first exception of `f`
otherwise, else the array of the results. -/
def mapResponse (f : JsVal → Except JsError JsVal) (data : JsVal) : Except JsError JsVal :=
  match data.or (JsVal.arr []) with
  | JsVal.arr xs => (xs.mapM f).map JsVal.arr
  | _ => Except.error JsError.typeError

/-- The search `users.find(user => user.email === email)` of
`usuariosAPI.findByEmail`: the first user with that email, `undefined` when
there is none, a `TypeError` on a `null` entry met before. -/
def findUser (email : String) : List JsVal → Except JsError JsVal
  | [] => Except.ok JsVal.undefined
  | user :: rest =>
    match user.getProp "email" with
    | Except.error e => Except.error e
    | Except.ok found => if found.strictEqStr email then Except.ok user else findUser email rest

/-- The static roles that `rolesAPI.getAll` falls back to (lines 596-599). -/
def rolesAPI.fallback : JsVal :=
  JsVal.arr [JsVal.obj [("id", JsVal.num 1), ("nombre", JsVal.str "admin")],
    JsVal.obj [("id", JsVal.num 2), ("nombre", JsVal.str "cliente")]]

/-- The categories that `getBlogCategories` falls back to (lines 1593-1597). -/
def getBlogCategories.fallback : JsVal :=
  JsVal.arr [JsVal.str "Tendencia", JsVal.str "Consejos", JsVal.str "Experiencias"]

/-- The categories that `getServiceCategories` falls back to (lines 1609-1619). -/
def getServiceCategories.fallback : JsVal :=
  JsVal.arr [JsVal.str "Animacion y Entretenimiento", JsVal.str "Musica y Sonido",
    JsVal.str "Decoracion y Ambientacion", JsVal.str "Catering y Banquetería",
    JsVal.str "Fotografia y Video", JsVal.str "Logistica y Produccion",
    JsVal.str "Estilo y Belleza", JsVal.str "Eventos Infantiles", JsVal.str "Eventos Especiales"]

/-- The read operations of the facades of `api.js`, each a `GET` through `api`
or through `cachedGet`. -/
inductive ReadOp where
  | rolesGetAll
  | usuariosGetAll
  | usuariosGetById
  | usuariosGetRawById
  | usuariosFindByEmail (email : String)
  | authMe
  | authGetProfile
  | serviciosGetAll
  | serviciosGetById
  | blogsGetAll
  | blogsGetById
  | comentariosGetByBlogId
  | carritoGetByUserId
  | pagosGetByUserId
  | pagosGetAll
  | getBlogCategories
  | getServiceCategories
  deriving DecidableEq, Repr

/-- Lift the exception of a normaliser to what the facade throws. -/
def thrownOf (r : Except JsError JsVal) : Except Thrown JsVal :=
  match r with
  | Except.ok v => Except.ok v
  | Except.error e => Except.error (Thrown.js e)

/-- What a read resolves with (`Except.ok`) or rejects with (`Except.error`) when
its request, or its `cachedGet`, settles with `outcome`: the body of the `try`
on success, the `catch` block on failure or on an exception of the `try`. -/
def ReadOp.result (op : ReadOp) (outcome : Except AxiosError JsVal) : Except Thrown JsVal :=
  match op, outcome with
  | ReadOp.rolesGetAll, Except.ok data => Except.ok data
  | ReadOp.rolesGetAll, Except.error _ => Except.ok rolesAPI.fallback
  | ReadOp.usuariosGetAll, Except.ok data => thrownOf (mapResponse mapUserFromXano data)
  | ReadOp.usuariosGetById, Except.ok data => thrownOf (mapUserFromXano data)
  | ReadOp.usuariosGetRawById, Except.ok data => Except.ok data
  | ReadOp.usuariosFindByEmail email, Except.ok data =>
    match data with
    | JsVal.arr xs =>
      match xs.mapM mapUserFromXano with
      | Except.ok users =>
        match findUser email users with
        | Except.ok user => Except.ok user
        | Except.error _ => Except.ok JsVal.null
      | Except.error _ => Except.ok JsVal.null
    | _ => Except.ok JsVal.null
  | ReadOp.usuariosFindByEmail _, Except.error _ => Except.ok JsVal.null
  | ReadOp.authMe, Except.ok data => thrownOf (mapUserFromXano data)
  | ReadOp.authGetProfile, Except.ok data => thrownOf (mapUserFromXano data)
  | ReadOp.serviciosGetAll, Except.ok data => thrownOf (mapResponse mapServiceFromXano data)
  | ReadOp.serviciosGetById, Except.ok data => thrownOf (mapServiceFromXano data)
  | ReadOp.blogsGetAll, Except.ok data => thrownOf (mapResponse mapBlogFromXano data)
  | ReadOp.blogsGetById, Except.ok data => thrownOf (mapBlogFromXano data)
  | ReadOp.comentariosGetByBlogId, Except.ok data => Except.ok data
  | ReadOp.carritoGetByUserId, Except.ok data => Except.ok data
  | ReadOp.pagosGetByUserId, Except.ok data => Except.ok data
  | ReadOp.pagosGetAll, Except.ok data => Except.ok data
  | ReadOp.getBlogCategories, Except.ok data => Except.ok data
  | ReadOp.getBlogCategories, Except.error _ => Except.ok getBlogCategories.fallback
  | ReadOp.getServiceCategories, Except.ok data => Except.ok data
  | ReadOp.getServiceCategories, Except.error _ => Except.ok getServiceCategories.fallback
  | _, Except.error err => Except.error (Thrown.axios err)

/-- The reads whose `catch` block returns a value instead of rethrowing. -/
def ReadOp.hasFallback : ReadOp → Bool
  | ReadOp.rolesGetAll => true
  | ReadOp.usuariosFindByEmail _ => true
  | ReadOp.getBlogCategories => true
  | ReadOp.getServiceCategories => true
  | _ => false


/-! ## User records written to `localStorage` -/

/-- Strict equality `a === b` of two values read from different places:
primitives are compared by value; an array or object is never identical to a
value obtained elsewhere. -/
def JsVal.strictEq : JsVal → JsVal → Bool
  | JsVal.undefined, JsVal.undefined => true
  | JsVal.null, JsVal.null => true
  | JsVal.bool a, JsVal.bool b => a == b
  | JsVal.num a, JsVal.num b => a == b
  | JsVal.str a, JsVal.str b => a == b
  | _, _ => false

/-- The statement `delete o.k` on the properties of a plain object. -/
def removeField (k : String) (fields : List (String × JsVal)) : List (String × JsVal) :=
  fields.filter (fun p => p.1 != k)

/-- The object `userWithoutPassword` of `login` and `register` in
`AuthContext.jsx` (lines 84-87 and 149-152): a copy of the user record with
`password`, `clave_hash` and `password_hash` deleted. The record is a mapped
user object, or `null`, whose copy is the empty object. -/
def AuthContext.userWithoutPassword (user : JsVal) : JsVal :=
  match user with
  | JsVal.obj fields =>
    JsVal.obj (removeField "password_hash" (removeField "clave_hash" (removeField "password" fields)))
  | _ => JsVal.obj []

/-- The filter `usuarios.filter(u => u.id !== userId)` of `handleDeleteUser` in
`Admin.jsx` (line 337). -/
def Admin.filterUsers (userId : JsVal) : List JsVal → Except JsError (List JsVal)
  | [] => Except.ok []
  | u :: rest =>
    match u.getProp "id" with
    | Except.error e => Except.error e
    | Except.ok id =>
      match Admin.filterUsers userId rest with
      | Except.error e => Except.error e
      | Except.ok kept => Except.ok (if !(id.strictEq userId) then u :: kept else kept)

/-- The list that `handleDeleteUser(userId)` of `Admin.jsx` (lines 335-339)
writes under `ambienteFestUsers`, when the state `usuarios` holds what
`usuariosAPI.getAll` resolved with for the remote records `remote`. -/
def Admin.handleDeleteUser (remote : List JsVal) (userId : JsVal) :
    Except JsError (List JsVal) :=
  match remote.mapM mapUserFromXano with
  | Except.error e => Except.error e
  | Except.ok usuarios => Admin.filterUsers userId usuarios

/-- The record written by `JSON.stringify` has the property `k`: a property
whose value is `undefined` is left out of the text. -/
def hasStoredField (k : String) (record : JsVal) : Bool :=
  !(record.optProp k).isUndefined


/-! ## The `catch` block of `authAPI.signup` (lines 1080-1133) -/

/-- The string method `s.includes(part)`. -/
def includes (s part : String) : Bool := decide (part.data <:+: s.data)

/-- The error that the `catch` block of `authAPI.signup` receives: its `message`
and, when the server answered, the status and the data of `error.response`. -/
structure CaughtError where
  message : JsVal
  response : Option (Nat × JsVal)

/-- What `authAPI.signup` rejects with: the error it caught, or a new `Error`
with its message, its property `status` (`none` when it is not set) and its
property `serverData` (`none` when that is not a JSON value). -/
inductive SignupRejection where
  | rethrown (error : CaughtError)
  | created (message : String) (status : Option Nat) (serverData : Option JsVal)

/-- The caller-facing message of a duplicate account. -/
def authAPI.signup.duplicateMessage : String := "El email ya está registrado en el sistema"

/-- The array `verificationErrors` (lines 1103-1108). -/
def authAPI.signup.verificationErrors : List String :=
  ["registro creado en auth, pero no existe record en /user",
    "la contraseña no fue hasheada en el servidor",
    "no fue hasheada",
    "no se encontró"]

/-- The value `error.response?.data`. -/
def CaughtError.data (error : CaughtError) : JsVal :=
  match error.response with
  | some r => r.2
  | none => JsVal.undefined

/-- The value `error.response?.status`. -/
def CaughtError.status (error : CaughtError) : Option Nat :=
  match error.response with
  | some r => some r.1
  | none => none

/-- The variable `serverMessage`:
`(error.response?.data?.message || error.message || '').toString()`. -/
def authAPI.signup.serverMessage (error : CaughtError) : String :=
  jsString (((error.data.optProp "message").or error.message).or (JsVal.str ""))

/-- The `catch` block of `authAPI.signup`, as a function of the error caught. -/
def authAPI.signup.handleError (error : CaughtError) : SignupRejection :=
  let respBody := error.data.or (JsVal.obj [])
  let respMessage := toLowerCase (jsString ((respBody.optProp "message").or (JsVal.str "")))
  let respCode := (respBody.optProp "code").or (JsVal.str "")
  if error.status = some 403
      ∧ (includes respMessage "already in use" = true
        ∨ respCode.strictEqStr "ERROR_CODE_ACCESS_DENIED" = true) then
    SignupRejection.created authAPI.signup.duplicateMessage (some 409) (some respBody)
  else
    let serverMessage := authAPI.signup.serverMessage error
    let status := error.status
    if authAPI.signup.verificationErrors.any (fun ve => includes (toLowerCase serverMessage) ve)
    then SignupRejection.rethrown error
    else
      let isDuplicate : Bool :=
        includes (toLowerCase serverMessage) "duplicate" || status == some 409
          || status == some 422
      if isDuplicate then
        SignupRejection.created authAPI.signup.duplicateMessage
          (some (match status with
            | some 0 => 500
            | some n => n
            | none => 500))
          (match error.response with
            | some r => some r.2
            | none => none)
      else
        SignupRejection.created
          (jsString (((error.data.optProp "message").or error.message).or
            (JsVal.str "Error en auth signup")))
          none
          (if error.data.truthy then some error.data else none)


/-! ## Theorems: retry policy -/

theorem retryInterceptor_reject (error : AxiosError)
    (h : ¬ (error.status = some 429 ∧
      toUpperCase ((error.config.getD { method := none, url := "", retryCount := none }).method.getD "")
        = "GET")) :
    retryInterceptor error = Handled.reject error := by
  simp only [retryInterceptor]
  rw [if_neg h]

theorem lowerChar_toUpper (c : Char) : lowerChar (Char.toUpper c) = lowerChar c := by
  unfold Char.toUpper
  by_cases h : c.toNat ≥ 97 ∧ c.toNat ≤ 122
  · simp only [h, and_self, if_true]
    obtain ⟨n, hn⟩ : ∃ n, c.toNat = n := ⟨_, rfl⟩
    have hc : c = Char.ofNat n := by rw [← hn, Char.ofNat_toNat]
    rw [hn] at h ⊢
    obtain ⟨h1, h2⟩ := h
    subst hc
    interval_cases n <;> decide
  · simp only [h, if_false]

theorem toLowerCase_toUpperCase (m : String) : toLowerCase (toUpperCase m) = toLowerCase m := by
  simp only [toLowerCase, toUpperCase, List.map_map]
  congr 1
  apply List.map_congr_left
  intro c _
  exact lowerChar_toUpper c

theorem dispatched_get (m url : String) (r : Option Nat) (hm : toUpperCase m = "GET") :
    dispatched { method := some m, url := url, retryCount := r }
      = { method := some "get", url := url, retryCount := r } := by
  have hne : m ≠ "" := by
    rintro rfl
    exact absurd hm (by decide)
  have hlow : toLowerCase m = "get" := by
    rw [← toLowerCase_toUpperCase, hm]
    decide
  simp [dispatched, hne, hlow]

theorem toUpper_lowerChar_iff (c u : Char) (hu : u = 'G' ∨ u = 'E' ∨ u = 'T') :
    Char.toUpper (lowerChar c) = u ↔ Char.toUpper c = u := by
  obtain ⟨n, hn⟩ : ∃ n, c.toNat = n := ⟨_, rfl⟩
  have hc : c = Char.ofNat n := by rw [← hn, Char.ofNat_toNat]
  by_cases h1 : 65 ≤ n ∧ n ≤ 90
  · obtain ⟨ha, hb⟩ := h1
    subst hc
    rcases hu with rfl | rfl | rfl <;> interval_cases n <;> decide
  by_cases h2 : 192 ≤ n ∧ n ≤ 222
  · obtain ⟨ha, hb⟩ := h2
    subst hc
    rcases hu with rfl | rfl | rfl <;> interval_cases n <;> decide
  · have hl : lowerChar c = c := by
      unfold lowerChar
      rw [hn]
      rw [if_neg]
      rintro (h | h)
      · exact h1 h
      · exact h2 ⟨h.1, h.2.1⟩
    rw [hl]

theorem map_eq_iff_of_pointwise (f g : Char → Char) :
    ∀ (t l : List Char), (∀ c, ∀ u ∈ t, f c = u ↔ g c = u) → (l.map f = t ↔ l.map g = t)
  | [], l, _ => by cases l <;> simp
  | u :: t, [], _ => by simp
  | u :: t, c :: l, h => by
    have ih := map_eq_iff_of_pointwise f g t l (fun c u hu => h c u (List.mem_cons_of_mem _ hu))
    have hh := h c u (List.mem_cons_self _ _)
    simp only [List.map_cons, List.cons.injEq, hh, ih]

theorem toUpperCase_toLowerCase_get (m : String) :
    toUpperCase (toLowerCase m) = "GET" ↔ toUpperCase m = "GET" := by
  have key := map_eq_iff_of_pointwise (fun c => Char.toUpper (lowerChar c)) Char.toUpper
    ['G', 'E', 'T'] m.data (fun c u hu => toUpper_lowerChar_iff c u (by simpa using hu))
  constructor
  · intro h
    have h2 := congrArg String.data h
    simp only [toUpperCase, toLowerCase, List.map_map] at h2
    apply String.ext
    exact key.mp h2
  · intro h
    have h2 := congrArg String.data h
    apply String.ext
    simp only [toUpperCase, toLowerCase, List.map_map]
    exact key.mpr h2

/-- The request that axios dispatches is a GET exactly when the configuration
has no method, has the empty string as method, or has `get` in some letter
case. -/
theorem dispatched_is_get_iff (config : RequestConfig) :
    toUpperCase ((dispatched config).method.getD "") = "GET"
      ↔ (config.method = none ∨ config.method = some ""
          ∨ ∃ m, config.method = some m ∧ toUpperCase m = "GET") := by
  obtain ⟨method, url, retryCount⟩ := config
  cases method with
  | none =>
    simp only [dispatched, Option.getD_some, true_or, iff_true]
    decide
  | some m =>
    by_cases hm : m = ""
    · subst hm
      simp only [dispatched, Option.getD_some, if_true, or_true, true_or, iff_true]
      decide
    · simp only [dispatched, Option.getD_some, hm, if_false, toUpperCase_toLowerCase_get,
        Option.some.injEq, false_or, reduceCtorEq]
      constructor
      · exact fun h => ⟨m, rfl, h⟩
      · rintro ⟨m2, rfl, h⟩
        exact h

/-- C1. Retry bound: a GET whose every attempt is answered with HTTP 429 is
issued exactly three times (the original and two retries, with
`__retryCount` 1 and 2), sleeps `250 * 2^1` = 500 ms and then `250 * 2^2` =
1000 ms before the retries, and then rejects with the 429 error. Any fuel of
at least 3 requests is enough for the run to finish. The method is given in
any letter case and dispatched as `get`. -/
theorem retry_bound (server : Nat → RequestConfig → Reply)
    (h429 : ∀ n c, server n c = Reply.failure (some 429))
    (m url : String) (hm : toUpperCase m = "GET") (fuel : Nat) (hfuel : 3 ≤ fuel) :
    request server fuel { method := some m, url := url, retryCount := none } ⟨[], []⟩
      = some (Except.error { config := some { method := some "get", url := url,
                                              retryCount := some 2 },
                             status := some 429 },
              { issued := [{ method := some "get", url := url, retryCount := none },
                           { method := some "get", url := url, retryCount := some 1 },
                           { method := some "get", url := url, retryCount := some 2 }],
                waits := [250 * 2 ^ 1, 250 * 2 ^ 2] }) := by
  obtain ⟨f, rfl⟩ : ∃ f, fuel = f + 3 := ⟨fuel - 3, by omega⟩
  have hget : toUpperCase "get" = "GET" := by decide
  have hd := dispatched_get m url none hm
  have hd0 := dispatched_get "get" url (some 1) hget
  have hd1 := dispatched_get "get" url (some 2) hget
  simp [request, h429, retryInterceptor, loggingInterceptor, hget, hd, hd0, hd1, MAX_RETRIES]

theorem retry_bound_witness :
    (∀ n c, (fun (_ : Nat) (_ : RequestConfig) => Reply.failure (some 429)) n c
        = Reply.failure (some 429))
    ∧ toUpperCase "GET" = "GET" ∧ 3 ≤ 3
    ∧ request (fun _ _ => Reply.failure (some 429)) 3
        { method := some "GET", url := "/service", retryCount := none } ⟨[], []⟩
      = some (Except.error
                { config := some { method := some "get", url := "/service", retryCount := some 2 },
                  status := some 429 },
              { issued := [{ method := some "get", url := "/service", retryCount := none },
                           { method := some "get", url := "/service", retryCount := some 1 },
                           { method := some "get", url := "/service", retryCount := some 2 }],
                waits := [250 * 2 ^ 1, 250 * 2 ^ 2] }) :=
  ⟨fun _ _ => rfl, by decide, by decide,
    retry_bound (fun _ _ => Reply.failure (some 429)) (fun _ _ => rfl) "GET" "/service"
      (by decide) 3 (by decide)⟩

/-- A request without a method is dispatched as a `get`: answered with 429 on
every attempt it is issued three times, like the request of `api.get`. -/
theorem request_without_method_retries (server : Nat → RequestConfig → Reply)
    (h429 : ∀ n c, server n c = Reply.failure (some 429)) (url : String) (fuel : Nat)
    (hfuel : 3 ≤ fuel) :
    request server fuel { method := none, url := url, retryCount := none } ⟨[], []⟩
      = some (Except.error { config := some { method := some "get", url := url,
                                              retryCount := some 2 },
                             status := some 429 },
              { issued := [{ method := some "get", url := url, retryCount := none },
                           { method := some "get", url := url, retryCount := some 1 },
                           { method := some "get", url := url, retryCount := some 2 }],
                waits := [500, 1000] }) := by
  obtain ⟨f, rfl⟩ : ∃ f, fuel = f + 3 := ⟨fuel - 3, by omega⟩
  have hget : toUpperCase "get" = "GET" := by decide
  have hd : dispatched { method := none, url := url, retryCount := none }
      = { method := some "get", url := url, retryCount := none } := by
    simp only [dispatched]
    congr 2
  have hd0 := dispatched_get "get" url (some 1) hget
  have hd1 := dispatched_get "get" url (some 2) hget
  simp [request, h429, retryInterceptor, loggingInterceptor, hget, hd, hd0, hd1, MAX_RETRIES]

/-- C2. No other retry: when the method that is dispatched is not GET (POST,
PATCH, PUT, DELETE; a request without a method is dispatched as a GET and is
not among them), or the failure is anything but a 429 response (another
status, or no response at all), the request is issued exactly once, nothing is
slept, and the rejection carries the original error: the dispatched
configuration, without a retry counter added, and the status. -/
theorem no_retry_passthrough (server : Nat → RequestConfig → Reply) (config : RequestConfig)
    (status : Option Nat) (fuel : Nat) (hfuel : 1 ≤ fuel)
    (hreply : server 0 (dispatched config) = Reply.failure status)
    (hother : toUpperCase ((dispatched config).method.getD "") ≠ "GET" ∨ status ≠ some 429) :
    request server fuel config ⟨[], []⟩
      = some (Except.error { config := some (dispatched config), status := status },
              { issued := [dispatched config], waits := [] }) := by
  obtain ⟨f, rfl⟩ : ∃ f, fuel = f + 1 := ⟨fuel - 1, by omega⟩
  have hrej := retryInterceptor_reject { config := some (dispatched config), status := status }
    (by
      rintro ⟨h1, h2⟩
      rcases hother with h | h
      · exact h h2
      · exact h h1)
  simp [request, hreply, loggingInterceptor, hrej]

theorem no_retry_passthrough_witness :
    1 ≤ 1
    ∧ (fun (_ : Nat) (_ : RequestConfig) => Reply.failure (some 429)) 0
        (dispatched { method := some "POST", url := "/service", retryCount := none })
        = Reply.failure (some 429)
    ∧ (toUpperCase
          ((dispatched { method := some "POST", url := "/service", retryCount := none }).method.getD
            "") ≠ "GET"
        ∨ some 429 ≠ some 429)
    ∧ request (fun _ _ => Reply.failure (some 429)) 1
        { method := some "POST", url := "/service", retryCount := none } ⟨[], []⟩
      = some (Except.error
                { config := some { method := some "post", url := "/service", retryCount := none },
                  status := some 429 },
              { issued := [{ method := some "post", url := "/service", retryCount := none }],
                waits := [] }) :=
  ⟨by decide, rfl, Or.inl (by decide),
    no_retry_passthrough (fun _ _ => Reply.failure (some 429))
      { method := some "POST", url := "/service", retryCount := none } (some 429) 1 (by decide)
      rfl (Or.inl (by decide))⟩

/-! ## Theorems: cache -/

theorem cachedGet_hit (caller : Nat) (url : String) (ttl now : Int) (w : World) (e : Entry)
    (he : w.cache (cacheKey w.baseURL url) = some e) (hv : e.value.truthy = true)
    (hfresh : now - e.t < ttl) :
    cachedGet caller url ttl now w = finish caller (Except.ok e.value) w := by
  simp [cachedGet, he, hv, hfresh]

theorem cachedGet_miss (caller : Nat) (url : String) (ttl now : Int) (w : World)
    (he : w.cache (cacheKey w.baseURL url) = none) :
    cachedGet caller url ttl now w = startRead caller url (cacheKey w.baseURL url) now w := by
  simp [cachedGet, he]

theorem cachedGet_stale (caller : Nat) (url : String) (ttl now : Int) (w : World) (e : Entry)
    (he : w.cache (cacheKey w.baseURL url) = some e) (hp : e.promise = none)
    (hstale : ¬ (e.value.truthy = true ∧ now - e.t < ttl)) :
    cachedGet caller url ttl now w = startRead caller url (cacheKey w.baseURL url) now w := by
  simp only [cachedGet, he, hp]
  rw [if_neg hstale]

theorem cachedGet_join (caller : Nat) (url : String) (ttl now : Int) (w : World) (e : Entry)
    (pid : Nat) (k : String) (ws : List Waiter)
    (he : w.cache (cacheKey w.baseURL url) = some e) (hval : e.value.truthy = false)
    (hp : e.promise = some pid) (hpend : w.promises pid = some (PromiseState.pending k ws)) :
    cachedGet caller url ttl now w =
      { w with promises := fun i =>
          if i = pid then some (PromiseState.pending k (ws ++ [Waiter.joiner caller]))
          else w.promises i } := by
  simp [cachedGet, he, hp, hpend, hval]

theorem cachedGetAll_join (url : String) (calls : List (Nat × Int × Int)) (w : World) (e : Entry)
    (pid : Nat) (k : String) (ws : List Waiter)
    (he : w.cache (cacheKey w.baseURL url) = some e) (hval : e.value.truthy = false)
    (hp : e.promise = some pid) (hpend : w.promises pid = some (PromiseState.pending k ws)) :
    cachedGetAll url calls w =
      { w with promises := fun i =>
          if i = pid then
            some (PromiseState.pending k (ws ++ calls.map (fun c => Waiter.joiner c.1)))
          else w.promises i } := by
  induction calls generalizing w ws with
  | nil =>
    cases w
    simp only [cachedGetAll, List.foldl_nil, List.map_nil, List.append_nil, World.mk.injEq,
      true_and, and_true]
    funext i
    by_cases hi : i = pid
    · subst hi; simpa using hpend
    · simp [hi]
  | cons c rest ih =>
    have hstep := cachedGet_join c.1 url c.2.1 c.2.2 w e pid k ws he hval hp hpend
    have := ih (cachedGet c.1 url c.2.1 c.2.2 w) (ws ++ [Waiter.joiner c.1])
      (by rw [hstep]; exact he) (by rw [hstep]; simp)
    simp only [cachedGetAll, List.foldl_cons] at this ⊢
    rw [this, hstep]
    simp only [World.mk.injEq, true_and, and_true, List.map_cons, List.append_assoc,
      List.singleton_append]
    funext i
    by_cases hi : i = pid <;> simp [hi]

theorem resume_ok_fold (key : String) (data : JsVal) (t : Int) (ws : List Waiter) (w : World)
    (h : w.cache key = some { t := t, value := data, promise := none }) :
    ws.foldl (resume key (Except.ok data)) w =
      { w with results := w.results ++ ws.map (fun x => (x.caller, Except.ok data)) } := by
  induction ws generalizing w with
  | nil => simp
  | cons x rest ih =>
    have hx : resume key (Except.ok data) w x = finish x.caller (Except.ok data) w := by
      cases x <;> simp [resume, h, Waiter.caller]
    rw [List.foldl_cons, hx, ih _ (by simpa [finish] using h)]
    simp [finish]

theorem resume_error_fold (key : String) (err : AxiosError) (ws : List Waiter) (w : World)
    (h : w.cache key = none) :
    ws.foldl (resume key (Except.error err)) w =
      { w with results := w.results ++ ws.map (fun x => (x.caller, Except.error err)) } := by
  induction ws generalizing w with
  | nil => simp
  | cons x rest ih =>
    have hdel : cacheDelete key w = w := by
      cases w
      simp only [cacheDelete, World.mk.injEq, true_and, and_true]
      funext k
      by_cases hk : k = key
      · subst hk; simpa using h.symm
      · simp [hk]
    have hx : resume key (Except.error err) w x = finish x.caller (Except.error err) w := by
      cases x <;> simp [resume, hdel, Waiter.caller]
    rw [List.foldl_cons, hx, ih _ (by simpa [finish] using h)]
    simp [finish]


theorem settle_ok (pid : Nat) (key : String) (ws : List Waiter) (data : JsVal) (now : Int)
    (w : World) (hpend : w.promises pid = some (PromiseState.pending key ws)) :
    settle pid (Except.ok data) now w =
      { w with
        cache := fun k => if k = key then some { t := now, value := data, promise := none }
                          else w.cache k
        promises := fun i => if i = pid then some (PromiseState.fulfilled data) else w.promises i
        results := w.results ++ ws.map (fun x => (x.caller, Except.ok data)) } := by
  simp only [settle, hpend]
  rw [resume_ok_fold key data now ws _ (by simp [cacheSet])]
  simp [cacheSet]

theorem settle_error (pid : Nat) (key : String) (ws : List Waiter) (err : AxiosError) (now : Int)
    (w : World) (hpend : w.promises pid = some (PromiseState.pending key ws)) :
    settle pid (Except.error err) now w =
      { w with
        cache := fun k => if k = key then none else w.cache k
        promises := fun i => if i = pid then some (PromiseState.rejected err) else w.promises i
        results := w.results ++ ws.map (fun x => (x.caller, Except.error err)) } := by
  simp only [settle, hpend]
  rw [resume_error_fold key err ws _ (by simp [cacheDelete])]
  simp [cacheDelete]

/-- After a batch of calls for an uncached key, one read is in flight and every
call of the batch waits on it. -/
theorem cachedGetAll_uncached (w : World) (url : String) (c0 : Nat × Int × Int)
    (rest : List (Nat × Int × Int)) (hempty : w.cache (cacheKey w.baseURL url) = none) :
    cachedGetAll url (c0 :: rest) w =
      { w with
        cache := fun k => if k = cacheKey w.baseURL url then
            some { t := c0.2.2, value := JsVal.undefined, promise := some w.nextId }
          else w.cache k
        promises := fun i =>
          if i = w.nextId then
            some (PromiseState.pending (cacheKey w.baseURL url)
              (Waiter.starter c0.1 :: rest.map (fun c => Waiter.joiner c.1)))
          else w.promises i
        nextId := w.nextId + 1
        gets := w.gets ++ [url] } := by
  have h0 := cachedGet_miss c0.1 url c0.2.1 c0.2.2 w hempty
  have hfold : cachedGetAll url (c0 :: rest) w
      = cachedGetAll url rest (cachedGet c0.1 url c0.2.1 c0.2.2 w) := rfl
  rw [hfold, h0]
  rw [cachedGetAll_join url rest _ { t := c0.2.2, value := JsVal.undefined, promise := some w.nextId }
    w.nextId (cacheKey w.baseURL url) [Waiter.starter c0.1]
    (by simp [startRead, cacheSet]) rfl rfl (by simp [startRead, cacheSet])]
  simp only [startRead, cacheSet, World.mk.injEq, true_and, and_true, List.singleton_append]
  funext i
  by_cases hi : i = w.nextId <;> simp [hi]


/-- A batch of later calls that all find a fresh settled entry are answered from
the cache and leave everything but the list of results unchanged. -/
theorem cachedGetAll_hits (url : String) (calls : List (Nat × Int × Int)) (w : World) (e : Entry)
    (he : w.cache (cacheKey w.baseURL url) = some e) (hv : e.value.truthy = true)
    (hfresh : ∀ c ∈ calls, c.2.2 - e.t < c.2.1) :
    cachedGetAll url calls w =
      { w with results := w.results ++ calls.map (fun c => (c.1, Except.ok e.value)) } := by
  induction calls generalizing w with
  | nil => simp [cachedGetAll]
  | cons c rest ih =>
    have hstep := cachedGet_hit c.1 url c.2.1 c.2.2 w e he hv (hfresh c (List.mem_cons_self _ _))
    have hfold : cachedGetAll url (c :: rest) w
        = cachedGetAll url rest (cachedGet c.1 url c.2.1 c.2.2 w) := rfl
    rw [hfold, hstep, ih _ (by simpa [finish] using he)
      (fun c hc => hfresh c (List.mem_cons_of_mem _ hc))]
    simp [finish]

/-- C3, as amended. Cache hit within the ttl: a first `cachedGet(url, ttl)` on a
key without entry issues one read; once that read has succeeded at time `t`
with a truthy value `data`, every later `cachedGet` of the same key called
less than its ttl after `t` returns `data`, and no second read is issued. -/
theorem cache_ttl_hit (w : World) (url : String) (caller : Nat) (ttl now t : Int) (data : JsVal)
    (later : List (Nat × Int × Int))
    (hempty : w.cache (cacheKey w.baseURL url) = none)
    (hdata : data.truthy = true)
    (hwithin : ∀ c ∈ later, c.2.2 - t < c.2.1) :
    (cachedGetAll url later
        (settle w.nextId (Except.ok data) t (cachedGet caller url ttl now w))).gets
      = w.gets ++ [url]
    ∧ (cachedGetAll url later
        (settle w.nextId (Except.ok data) t (cachedGet caller url ttl now w))).results
      = w.results ++ (caller, Except.ok data) :: later.map (fun c => (c.1, Except.ok data)) := by
  have h1 := cachedGetAll_uncached w url (caller, ttl, now) [] hempty
  have h1' : cachedGetAll url [(caller, ttl, now)] w = cachedGet caller url ttl now w := rfl
  rw [h1'] at h1
  rw [h1, settle_ok w.nextId (cacheKey w.baseURL url) [Waiter.starter caller] data t _ (by simp)]
  rw [cachedGetAll_hits url later _ { t := t, value := data, promise := none } (by simp) hdata
    hwithin]
  simp [Waiter.caller]

/-- C4. Single flight: `N >= 1` calls of `cachedGet` for a key without entry,
made before the read settles (whatever their ttl), issue exactly one
`api.get`; when it succeeds with `data` every one of the `N` callers receives
`data`, when it fails with `err` every one of them receives `err`, and no
further read has been issued by then. -/
theorem single_flight (w : World) (url : String) (c0 : Nat × Int × Int)
    (rest : List (Nat × Int × Int)) (t : Int)
    (hempty : w.cache (cacheKey w.baseURL url) = none) :
    (cachedGetAll url (c0 :: rest) w).gets = w.gets ++ [url]
    ∧ (∀ data : JsVal,
        (settle w.nextId (Except.ok data) t (cachedGetAll url (c0 :: rest) w)).gets
          = w.gets ++ [url]
        ∧ (settle w.nextId (Except.ok data) t (cachedGetAll url (c0 :: rest) w)).results
          = w.results ++ (c0 :: rest).map (fun c => (c.1, Except.ok data)))
    ∧ (∀ err : AxiosError,
        (settle w.nextId (Except.error err) t (cachedGetAll url (c0 :: rest) w)).gets
          = w.gets ++ [url]
        ∧ (settle w.nextId (Except.error err) t (cachedGetAll url (c0 :: rest) w)).results
          = w.results ++ (c0 :: rest).map (fun c => (c.1, Except.error err))) := by
  rw [cachedGetAll_uncached w url c0 rest hempty]
  refine ⟨rfl, fun data => ?_, fun err => ?_⟩
  · rw [settle_ok w.nextId (cacheKey w.baseURL url)
      (Waiter.starter c0.1 :: rest.map (fun c => Waiter.joiner c.1)) data t _ (by simp)]
    simp [Waiter.caller, Function.comp_def]
  · rw [settle_error w.nextId (cacheKey w.baseURL url)
      (Waiter.starter c0.1 :: rest.map (fun c => Waiter.joiner c.1)) err t _ (by simp)]
    simp [Waiter.caller, Function.comp_def]

/-- C5. Expiry: with a settled entry for the key whose age `now - e.t` is at least
the ttl, `cachedGet` issues exactly one new read; when that read succeeds with
`data` at time `t2` the entry becomes `{ t: t2, value: data }`, stamped with
the completion time `t2` and not with the time `now` of the call, and the
caller receives `data`. -/
theorem cache_ttl_expiry (w : World) (url : String) (caller : Nat) (ttl now : Int) (e : Entry)
    (he : w.cache (cacheKey w.baseURL url) = some e) (hsettled : e.promise = none)
    (hexpired : ttl ≤ now - e.t) :
    (cachedGet caller url ttl now w).gets = w.gets ++ [url]
    ∧ ∀ (data : JsVal) (t2 : Int),
        (settle w.nextId (Except.ok data) t2 (cachedGet caller url ttl now w)).cache
            (cacheKey w.baseURL url)
          = some { t := t2, value := data, promise := none }
        ∧ (settle w.nextId (Except.ok data) t2 (cachedGet caller url ttl now w)).gets
          = w.gets ++ [url]
        ∧ (settle w.nextId (Except.ok data) t2 (cachedGet caller url ttl now w)).results
          = w.results ++ [(caller, Except.ok data)] := by
  have hstep := cachedGet_stale caller url ttl now w e he hsettled
    (by intro h; have := h.2; omega)
  rw [hstep]
  refine ⟨by simp [startRead, cacheSet], fun data t2 => ?_⟩
  rw [settle_ok w.nextId (cacheKey w.baseURL url) [Waiter.starter caller] data t2 _
    (by simp [startRead, cacheSet])]
  simp [startRead, cacheSet, Waiter.caller]

/-- C6. A failure is not cached: when the pending read of a key fails with `err`,
every caller waiting on it receives `err`, the cache then holds no entry at
all for the key, and the next `cachedGet` of that key issues a new read. -/
theorem failure_not_cached (w : World) (pid : Nat) (url : String) (ws : List Waiter)
    (err : AxiosError) (t : Int)
    (hpend : w.promises pid = some (PromiseState.pending (cacheKey w.baseURL url) ws)) :
    (settle pid (Except.error err) t w).cache (cacheKey w.baseURL url) = none
    ∧ (settle pid (Except.error err) t w).results
        = w.results ++ ws.map (fun x => (x.caller, Except.error err))
    ∧ ∀ (caller : Nat) (ttl now : Int),
        (cachedGet caller url ttl now (settle pid (Except.error err) t w)).gets
          = w.gets ++ [url] := by
  rw [settle_error pid (cacheKey w.baseURL url) ws err t w hpend]
  refine ⟨by simp, rfl, fun caller ttl now => ?_⟩
  rw [cachedGet_miss _ _ _ _ _ (by simp)]
  simp [startRead, cacheSet]


theorem cache_ttl_hit_witness :
    (World.init "https://store").cache (cacheKey (World.init "https://store").baseURL "/blog") = none
    ∧ (JsVal.arr [JsVal.obj [("id", JsVal.num 1)]]).truthy = true
    ∧ (cachedGetAll "/blog" [(2, 120000, 1000), (3, 300000, 119000)]
        (settle (World.init "https://store").nextId
          (Except.ok (JsVal.arr [JsVal.obj [("id", JsVal.num 1)]])) 150
          (cachedGet 1 "/blog" 120000 0 (World.init "https://store")))).gets
      = (World.init "https://store").gets ++ ["/blog"] :=
  ⟨rfl, rfl,
    (cache_ttl_hit (World.init "https://store") "/blog" 1 120000 0 150
      (JsVal.arr [JsVal.obj [("id", JsVal.num 1)]]) [(2, 120000, 1000), (3, 300000, 119000)]
      rfl rfl (by decide)).1⟩

/-- C3, counterexample. The first read of `/blog` succeeds with the response
value `null` and its caller receives it; a second `cachedGet` 10 ms after that
success, far inside the ttl of 120000 ms, issues a second read: the guard
`entry.value && ...` does not accept a falsy cached value. -/
theorem cache_ttl_hit_fails_on_falsy_data :
    (settle 0 (Except.ok JsVal.null) 10
        (cachedGet 1 "/blog" 120000 0 (World.init "https://store"))).results
      = [(1, Except.ok JsVal.null)]
    ∧ (20 : Int) - 10 < 120000
    ∧ (cachedGet 2 "/blog" 120000 20
        (settle 0 (Except.ok JsVal.null) 10
          (cachedGet 1 "/blog" 120000 0 (World.init "https://store")))).gets
      = ["/blog", "/blog"] :=
  ⟨rfl, by decide, by decide⟩

theorem single_flight_witness :
    (World.init "https://store").cache (cacheKey (World.init "https://store").baseURL "/service")
      = none
    ∧ (cachedGetAll "/service" [(1, 300000, 0), (2, 300000, 0)] (World.init "https://store")).gets
      = (World.init "https://store").gets ++ ["/service"] :=
  ⟨rfl,
    (single_flight (World.init "https://store") "/service" (1, 300000, 0) [(2, 300000, 0)] 40
      rfl).1⟩

theorem cache_ttl_expiry_witness :
    (cachedGet 2 "/blog" 120000 120010
        (settle 0 (Except.ok (JsVal.arr [])) 10
          (cachedGet 1 "/blog" 120000 0 (World.init "https://store")))).gets
      = (settle 0 (Except.ok (JsVal.arr [])) 10
          (cachedGet 1 "/blog" 120000 0 (World.init "https://store"))).gets ++ ["/blog"] :=
  (cache_ttl_expiry
    (settle 0 (Except.ok (JsVal.arr [])) 10
      (cachedGet 1 "/blog" 120000 0 (World.init "https://store")))
    "/blog" 2 120000 120010 { t := 10, value := JsVal.arr [], promise := none }
    rfl rfl (by decide)).1

theorem failure_not_cached_witness :
    (settle 0 (Except.error { config := none, status := some 500 }) 10
        (cachedGet 1 "/blog" 120000 0 (World.init "https://store"))).cache
      (cacheKey (cachedGet 1 "/blog" 120000 0 (World.init "https://store")).baseURL "/blog")
      = none :=
  (failure_not_cached (cachedGet 1 "/blog" 120000 0 (World.init "https://store")) 0 "/blog"
    [Waiter.starter 1] { config := none, status := some 500 } 10 rfl).1

/-! ## Theorems: writes and the cache -/

/-- C7, counterexample. The active listing is read and cached at time 100;
`serviciosAPI.update(7, ...)` then completes; the cache still holds the settled
entry of the list read, and a `getAll` at time 200 issues no read and returns
the list cached before the write. -/
theorem write_leaves_stale_list :
    (serviciosAPI.update "7"
        (settle 0 (Except.ok (JsVal.arr [JsVal.obj [("id", JsVal.num 7)]])) 100
          (serviciosAPI.getAll 1 {} 0 (World.init "https://store")))).cache
      (cacheKey "https://store" "/service?available=true&status=active")
      = some { t := 100, value := JsVal.arr [JsVal.obj [("id", JsVal.num 7)]], promise := none }
    ∧ (serviciosAPI.getAll 2 {} 200
        (serviciosAPI.update "7"
          (settle 0 (Except.ok (JsVal.arr [JsVal.obj [("id", JsVal.num 7)]])) 100
            (serviciosAPI.getAll 1 {} 0 (World.init "https://store"))))).gets
      = ["/service?available=true&status=active"]
    ∧ (serviciosAPI.getAll 2 {} 200
        (serviciosAPI.update "7"
          (settle 0 (Except.ok (JsVal.arr [JsVal.obj [("id", JsVal.num 7)]])) 100
            (serviciosAPI.getAll 1 {} 0 (World.init "https://store"))))).results
      = [(1, Except.ok (JsVal.arr [JsVal.obj [("id", JsVal.num 7)]])),
         (2, Except.ok (JsVal.arr [JsVal.obj [("id", JsVal.num 7)]]))] :=
  ⟨rfl, by decide, rfl⟩

theorem cachedGet_after_apiWrite (w : World) (method u url : String) (caller : Nat)
    (ttl now : Int) (e : Entry)
    (he : w.cache (cacheKey w.baseURL url) = some e) (hv : e.value.truthy = true)
    (hfresh : now - e.t < ttl) :
    (apiWrite method u w).cache = w.cache
    ∧ (cachedGet caller url ttl now (apiWrite method u w)).gets = w.gets
    ∧ (cachedGet caller url ttl now (apiWrite method u w)).results
        = w.results ++ [(caller, Except.ok e.value)] := by
  have hh := cachedGet_hit caller url ttl now (apiWrite method u w) e he hv hfresh
  exact ⟨rfl, by rw [hh]; rfl, by rw [hh]; rfl⟩

/-- C7, as amended. Writes do not touch the cache: `update` and `delete` of
`serviciosAPI`, `usuariosAPI` and `blogsAPI` leave `simpleCache` as it is, so a
settled entry with a truthy value that is younger than the ttl is still served
after the write: the following read issues no request and returns the cached
value. -/
theorem write_keeps_cache (w : World) (id url : String) (caller : Nat) (ttl now : Int) (e : Entry)
    (he : w.cache (cacheKey w.baseURL url) = some e) (hv : e.value.truthy = true)
    (hfresh : now - e.t < ttl) :
    ∀ write ∈ [serviciosAPI.update id, serviciosAPI.delete id, usuariosAPI.update id,
                usuariosAPI.delete id, blogsAPI.update id, blogsAPI.delete id],
      (write w).cache = w.cache
      ∧ (cachedGet caller url ttl now (write w)).gets = w.gets
      ∧ (cachedGet caller url ttl now (write w)).results
          = w.results ++ [(caller, Except.ok e.value)] := by
  intro write hwrite
  simp only [List.mem_cons, List.mem_singleton, List.not_mem_nil, or_false] at hwrite
  rcases hwrite with h | h | h | h | h | h <;> subst h <;>
    exact cachedGet_after_apiWrite w _ _ url caller ttl now e he hv hfresh

theorem write_keeps_cache_witness :
    (200 : Int) - 100 < 120000
    ∧ ∀ write ∈ [serviciosAPI.update "7", serviciosAPI.delete "7", usuariosAPI.update "7",
                usuariosAPI.delete "7", blogsAPI.update "7", blogsAPI.delete "7"],
      (write (settle 0 (Except.ok (JsVal.arr [JsVal.obj [("id", JsVal.num 7)]])) 100
          (serviciosAPI.getAll 1 {} 0 (World.init "https://store")))).cache
        = (settle 0 (Except.ok (JsVal.arr [JsVal.obj [("id", JsVal.num 7)]])) 100
          (serviciosAPI.getAll 1 {} 0 (World.init "https://store"))).cache
      ∧ (cachedGet 2 "/service?available=true&status=active" 120000 200
          (write (settle 0 (Except.ok (JsVal.arr [JsVal.obj [("id", JsVal.num 7)]])) 100
            (serviciosAPI.getAll 1 {} 0 (World.init "https://store"))))).gets
        = (settle 0 (Except.ok (JsVal.arr [JsVal.obj [("id", JsVal.num 7)]])) 100
          (serviciosAPI.getAll 1 {} 0 (World.init "https://store"))).gets
      ∧ (cachedGet 2 "/service?available=true&status=active" 120000 200
          (write (settle 0 (Except.ok (JsVal.arr [JsVal.obj [("id", JsVal.num 7)]])) 100
            (serviciosAPI.getAll 1 {} 0 (World.init "https://store"))))).results
        = (settle 0 (Except.ok (JsVal.arr [JsVal.obj [("id", JsVal.num 7)]])) 100
          (serviciosAPI.getAll 1 {} 0 (World.init "https://store"))).results
          ++ [(2, Except.ok (JsVal.arr [JsVal.obj [("id", JsVal.num 7)]]))] :=
  ⟨by decide,
    write_keeps_cache
      (settle 0 (Except.ok (JsVal.arr [JsVal.obj [("id", JsVal.num 7)]])) 100
        (serviciosAPI.getAll 1 {} 0 (World.init "https://store")))
      "7" "/service?available=true&status=active" 2 120000 200
      { t := 100, value := JsVal.arr [JsVal.obj [("id", JsVal.num 7)]], promise := none }
      rfl rfl (by decide)⟩

/-! ## Theorems: cache keys -/

/-- C8, counterexample. Two distinct bases with two paths that give the same
cache key: the separator `::` may occur in a base or in a path. -/
theorem cacheKey_collision :
    ("https://x.io/api" : String) ≠ "https://x.io/api::/v2"
    ∧ cacheKey "https://x.io/api" "/v2::/user" = cacheKey "https://x.io/api::/v2" "/user" := by
  decide

/-- C8, as amended. The cache keys of two distinct bases differ whenever neither
base is a prefix of the other (in particular when they have the same length,
as the two configured service urls have), whatever the paths; they also differ
whenever the two paths are the same. -/
theorem cacheKey_injective (b1 b2 p1 p2 : String) (hne : b1 ≠ b2)
    (hsep : (¬ b1.data <+: b2.data ∧ ¬ b2.data <+: b1.data) ∨ p1 = p2) :
    cacheKey b1 p1 ≠ cacheKey b2 p2 := by
  intro hkey
  have hdata := congrArg String.data hkey
  simp only [cacheKey, String.data_append, List.append_assoc] at hdata
  rcases hsep with ⟨h12, h21⟩ | hp
  · rcases (List.append_eq_append_iff.mp hdata) with ⟨a, ha, _⟩ | ⟨c, hc, _⟩
    · exact h12 ⟨a, ha.symm⟩
    · exact h21 ⟨c, hc.symm⟩
  · subst hp
    exact hne (String.ext (List.append_cancel_right hdata))

theorem cacheKey_injective_witness :
    cacheKey "https://x8ki-letl-twmt.n7.xano.io/api:OdHOEeXs" "/user"
      ≠ cacheKey "https://x8ki-letl-twmt.n7.xano.io/api:KBcldO_7" "/service" :=
  cacheKey_injective "https://x8ki-letl-twmt.n7.xano.io/api:OdHOEeXs"
    "https://x8ki-letl-twmt.n7.xano.io/api:KBcldO_7" "/user" "/service" (by decide)
    (Or.inl ⟨by decide, by decide⟩)

/-! ## Theorems: image normalisation -/

theorem getProp_of_truthy (v : JsVal) (k : String) (h : v.truthy = true) :
    v.getProp k = Except.ok (v.optProp k) := by
  cases v <;> simp_all [JsVal.getProp, JsVal.optProp, JsVal.truthy]

theorem urlChain_or_empty (o last : JsVal) (ho : o.truthy = true) (hlast : last.truthy = false) :
    (urlChain o last >>= fun r => pure (r.or (JsVal.str ""))) = Except.ok (specExtractObject o) := by
  simp only [urlChain, getProp_of_truthy o _ ho, specExtractObject, specFirstNonEmpty]
  by_cases h1 : (o.optProp "url").truthy = true
  · simp [h1, JsVal.or, bind, Except.bind, pure, Except.pure]
  · by_cases h2 : ((o.optProp "file").optProp "url").truthy = true
    · simp [h1, h2, JsVal.or, bind, Except.bind, pure, Except.pure]
    · by_cases h3 : (o.optProp "file_url").truthy = true
      · simp [h1, h2, h3, JsVal.or, bind, Except.bind, pure, Except.pure]
      · by_cases h4 : (o.optProp "fileUrl").truthy = true
        · simp [h1, h2, h3, h4, JsVal.or, bind, Except.bind, pure, Except.pure]
        · simp [h1, h2, h3, h4, hlast, JsVal.or, bind, Except.bind, pure, Except.pure]

theorem specExtractObject_of_not_obj (v : JsVal) (h : ∀ fields, v ≠ JsVal.obj fields) :
    specExtractObject v = JsVal.str "" := by
  cases v <;> first
    | exact absurd rfl (h _)
    | simp [specExtractObject, specFirstNonEmpty, JsVal.optProp, JsVal.truthy]

theorem service_normalizedImage_obj (fields : List (String × JsVal)) :
    mapServiceFromXano.normalizedImage (JsVal.obj fields)
      = Except.ok (specExtractObject (JsVal.obj fields)) := by
  have h := urlChain_or_empty (JsVal.obj fields) JsVal.null rfl rfl
  simpa [mapServiceFromXano.normalizedImage, mapServiceFromXano.extractImageUrl, JsVal.truthy,
    JsVal.isString, JsVal.typeofObject] using h

theorem blog_normalizedImage_obj (fields : List (String × JsVal)) :
    mapBlogFromXano.normalizedImage (JsVal.obj fields)
      = Except.ok (specExtractObject (JsVal.obj fields)) := by
  have h := urlChain_or_empty (JsVal.obj fields) (JsVal.str "") rfl rfl
  simpa [mapBlogFromXano.normalizedImage, mapBlogFromXano.extractImageUrl, JsVal.truthy,
    JsVal.isString, JsVal.typeofObject] using h

theorem service_extract_arr_cons (first : JsVal) (rest : List JsVal) :
    mapServiceFromXano.extractImageUrl (JsVal.arr (first :: rest))
      = if !first.truthy then pure JsVal.null
        else if first.isString then pure first
        else urlChain first JsVal.null := rfl

theorem blog_extract_arr_cons (first : JsVal) (rest : List JsVal) :
    mapBlogFromXano.extractImageUrl (JsVal.arr (first :: rest))
      = if !first.truthy then pure (JsVal.str "")
        else if first.isString then pure first
        else urlChain first (JsVal.str "") := rfl

theorem specResolveElement_of_not_string (first : JsVal) (hs : ¬ first.isString = true) :
    specResolveElement first = specExtractObject first := by
  cases first <;> simp_all [specResolveElement, JsVal.isString, specExtractObject,
    specFirstNonEmpty, JsVal.optProp, JsVal.truthy]

theorem specResolveElement_of_falsy (first : JsVal) (hf : ¬ first.truthy = true) :
    specResolveElement first = JsVal.str "" := by
  cases first <;> simp_all [specResolveElement, JsVal.truthy]

theorem specResolveElement_of_string (first : JsVal) (hf : first.truthy = true)
    (hs : first.isString = true) : first.or (JsVal.str "") = specResolveElement first := by
  cases first <;> simp_all [specResolveElement, JsVal.isString, JsVal.or]

theorem service_normalizedImage_arr (xs : List JsVal) :
    mapServiceFromXano.normalizedImage (JsVal.arr xs) = Except.ok (specResolveArray xs) := by
  cases xs with
  | nil =>
    have h := urlChain_or_empty (JsVal.arr []) JsVal.null rfl rfl
    rw [specExtractObject_of_not_obj _ (by intro f hf; cases hf)] at h
    simpa [mapServiceFromXano.normalizedImage, mapServiceFromXano.extractImageUrl, JsVal.truthy,
      JsVal.isString, JsVal.typeofObject, specResolveArray] using h
  | cons first rest =>
    simp only [mapServiceFromXano.normalizedImage, service_extract_arr_cons, specResolveArray]
    by_cases hf : first.truthy = true
    · by_cases hs : first.isString = true
      · simp [hf, hs, specResolveElement_of_string first hf hs, bind, Except.bind, pure,
          Except.pure]
      · have h := urlChain_or_empty first JsVal.null hf rfl
        simpa [hf, hs, specResolveElement_of_not_string first hs] using h
    · have hf0 : first.truthy = false := by simpa using hf
      have hnull : JsVal.null.or (JsVal.str "") = JsVal.str "" := rfl
      have hempty : (JsVal.str "").or (JsVal.str "") = JsVal.str "" := rfl
      simp [hf0, specResolveElement_of_falsy first hf, hnull, hempty, bind, Except.bind, pure,
        Except.pure]

theorem blog_normalizedImage_arr (xs : List JsVal) :
    mapBlogFromXano.normalizedImage (JsVal.arr xs) = Except.ok (specResolveArray xs) := by
  cases xs with
  | nil =>
    have h := urlChain_or_empty (JsVal.arr []) (JsVal.str "") rfl rfl
    rw [specExtractObject_of_not_obj _ (by intro f hf; cases hf)] at h
    simpa [mapBlogFromXano.normalizedImage, mapBlogFromXano.extractImageUrl, JsVal.truthy,
      JsVal.isString, JsVal.typeofObject, specResolveArray] using h
  | cons first rest =>
    simp only [mapBlogFromXano.normalizedImage, blog_extract_arr_cons, specResolveArray]
    by_cases hf : first.truthy = true
    · by_cases hs : first.isString = true
      · simp [hf, hs, specResolveElement_of_string first hf hs, bind, Except.bind, pure,
          Except.pure]
      · have h := urlChain_or_empty first (JsVal.str "") hf rfl
        simpa [hf, hs, specResolveElement_of_not_string first hs] using h
    · have hf0 : first.truthy = false := by simpa using hf
      have hnull : JsVal.null.or (JsVal.str "") = JsVal.str "" := rfl
      have hempty : (JsVal.str "").or (JsVal.str "") = JsVal.str "" := rfl
      simp [hf0, specResolveElement_of_falsy first hf, hnull, hempty, bind, Except.bind, pure,
        Except.pure]

/-- C10. Image resolution equals the reference definition, in the listing and
in the blog normaliser: for an object the result is the first non-empty value
among `url`, `file.url`, `file_url`, `fileUrl` in that order, and `''` if there
is none; for an array it is the resolution of the first element, a string
being passed through and an object going through the same extraction. -/
theorem image_resolution_refines_spec :
    (∀ fields : List (String × JsVal),
      mapServiceFromXano.normalizedImage (JsVal.obj fields)
          = Except.ok (specExtractObject (JsVal.obj fields))
      ∧ mapBlogFromXano.normalizedImage (JsVal.obj fields)
          = Except.ok (specExtractObject (JsVal.obj fields)))
    ∧ (∀ xs : List JsVal,
      mapServiceFromXano.normalizedImage (JsVal.arr xs) = Except.ok (specResolveArray xs)
      ∧ mapBlogFromXano.normalizedImage (JsVal.arr xs) = Except.ok (specResolveArray xs)) :=
  ⟨fun fields => ⟨service_normalizedImage_obj fields, blog_normalizedImage_obj fields⟩,
    fun xs => ⟨service_normalizedImage_arr xs, blog_normalizedImage_arr xs⟩⟩

theorem urlChain_total (o last : JsVal) (ho : o.truthy = true) :
    ∃ r, urlChain o last = Except.ok r := by
  simp only [urlChain, getProp_of_truthy o _ ho]
  by_cases h1 : (o.optProp "url").truthy = true
  · exact ⟨o.optProp "url", by simp [h1, bind, Except.bind, pure, Except.pure]⟩
  · by_cases h2 : ((o.optProp "file").optProp "url").truthy = true
    · exact ⟨(o.optProp "file").optProp "url", by
        simp [h1, h2, bind, Except.bind, pure, Except.pure]⟩
    · by_cases h3 : (o.optProp "file_url").truthy = true
      · exact ⟨o.optProp "file_url", by simp [h1, h2, h3, bind, Except.bind, pure, Except.pure]⟩
      · by_cases h4 : (o.optProp "fileUrl").truthy = true
        · exact ⟨o.optProp "fileUrl", by
            simp [h1, h2, h3, h4, bind, Except.bind, pure, Except.pure]⟩
        · exact ⟨last, by simp [h1, h2, h3, h4, bind, Except.bind, pure, Except.pure]⟩

theorem service_extractImageUrl_total (field : JsVal) :
    ∃ r, mapServiceFromXano.extractImageUrl field = Except.ok r := by
  by_cases hf : field.truthy = true
  · by_cases hs : field.isString = true
    · exact ⟨field, by simp [mapServiceFromXano.extractImageUrl, hf, hs, pure, Except.pure]⟩
    · cases field with
      | arr xs =>
        cases xs with
        | nil => exact urlChain_total _ _ rfl
        | cons first rest =>
          rw [service_extract_arr_cons]
          by_cases h1 : first.truthy = true
          · by_cases h2 : first.isString = true
            · exact ⟨first, by simp [h1, h2, pure, Except.pure]⟩
            · obtain ⟨r, hr⟩ := urlChain_total first JsVal.null h1
              exact ⟨r, by simp [h1, h2, hr]⟩
          · exact ⟨JsVal.null, by simp [h1, pure, Except.pure]⟩
      | obj fields => exact urlChain_total _ _ rfl
      | undefined => exact ⟨JsVal.null, rfl⟩
      | null => exact ⟨JsVal.null, rfl⟩
      | bool b => exact ⟨JsVal.null, by cases b <;> rfl⟩
      | num n =>
        exact ⟨JsVal.null, by
          simp [mapServiceFromXano.extractImageUrl, JsVal.isString, JsVal.typeofObject, pure,
            Except.pure]⟩
      | str s => exact absurd rfl hs
  · exact ⟨JsVal.null, by simp [mapServiceFromXano.extractImageUrl, hf, pure, Except.pure]⟩

/-- The normaliser `mapServiceFromXano` never throws. -/
theorem mapServiceFromXano_total (xanoService : JsVal) :
    ∃ r, mapServiceFromXano xanoService = Except.ok r := by
  by_cases hx : xanoService.truthy = true
  · obtain ⟨img, himg⟩ := service_extractImageUrl_total
      (((((xanoService.optProp "image_url").coalesce (xanoService.optProp "image")).coalesce
        (xanoService.optProp "image_file")).coalesce (xanoService.optProp "file")).coalesce
        JsVal.null)
    simp only [mapServiceFromXano, hx, getProp_of_truthy xanoService _ hx,
      mapServiceFromXano.normalizedImage]
    simp [bind, Except.bind, pure, Except.pure, himg]
  · exact ⟨JsVal.null, by simp [mapServiceFromXano, hx, pure, Except.pure]⟩

/-- C9, failing input. For the record
`{ id: 1, name: "DJ", image: { url: ["http://x"] } }` the normaliser does not
throw, and the field `imagen` of its result is the array `["http://x"]`, not a
string: the chain `field.url || ...` returns the first truthy value whatever
its type. -/
theorem mapServiceFromXano_imagen_not_string :
    (mapServiceFromXano
        (JsVal.obj [("id", JsVal.num 1), ("name", JsVal.str "DJ"),
          ("image", JsVal.obj [("url", JsVal.arr [JsVal.str "http://x"])])])).map
      (fun r => r.optProp "imagen")
      = Except.ok (JsVal.arr [JsVal.str "http://x"])
    ∧ (JsVal.arr [JsVal.str "http://x"]).isString = false :=
  ⟨rfl, rfl⟩

/-! ## Theorems: strings as image fields, the listed images, the blog record -/

theorem service_normalizedImage_str (s : String) :
    mapServiceFromXano.normalizedImage (JsVal.str s) = Except.ok (JsVal.str s) := by
  by_cases h : s = ""
  · subst h; rfl
  · simp [mapServiceFromXano.normalizedImage, mapServiceFromXano.extractImageUrl, JsVal.truthy,
      JsVal.isString, JsVal.or, h, bind, Except.bind, pure, Except.pure]

theorem blog_normalizedImage_str (s : String) :
    mapBlogFromXano.normalizedImage (JsVal.str s) = Except.ok (JsVal.str s) := by
  by_cases h : s = ""
  · subst h; rfl
  · simp [mapBlogFromXano.normalizedImage, mapBlogFromXano.extractImageUrl, JsVal.truthy,
      JsVal.isString, JsVal.or, h, bind, Except.bind, pure, Except.pure]

/-- The field `imagen` of a listing record is the resolution of its raw image. -/
theorem mapServiceFromXano_imagen (x : JsVal) (hx : x.truthy = true) :
    (mapServiceFromXano x).map (fun r => r.optProp "imagen")
      = mapServiceFromXano.normalizedImage (mapServiceFromXano.rawImage x) := by
  simp only [mapServiceFromXano, hx, getProp_of_truthy x _ hx, mapServiceFromXano.rawImage]
  cases h : mapServiceFromXano.normalizedImage
      (((((x.optProp "image_url").coalesce (x.optProp "image")).coalesce
        (x.optProp "image_file")).coalesce (x.optProp "file")).coalesce JsVal.null) with
  | error e => simp [bind, Except.bind, pure, Except.pure, Except.map, h]
  | ok v =>
    simp only [bind, Except.bind, pure, Except.pure, Except.map, h]
    rfl

/-- The three image fields of a blog record are the resolution of its raw image. -/
theorem mapBlogFromXano_images (x : JsVal) (hx : x.truthy = true) :
    (mapBlogFromXano x).map (fun r => r.optProp "imagen")
        = mapBlogFromXano.normalizedImage (mapBlogFromXano.rawImage x)
    ∧ (mapBlogFromXano x).map (fun r => r.optProp "imagen_url")
        = mapBlogFromXano.normalizedImage (mapBlogFromXano.rawImage x)
    ∧ (mapBlogFromXano x).map (fun r => r.optProp "image_url")
        = mapBlogFromXano.normalizedImage (mapBlogFromXano.rawImage x) := by
  simp only [mapBlogFromXano, hx, getProp_of_truthy x _ hx, mapBlogFromXano.rawImage]
  cases h : mapBlogFromXano.normalizedImage
      ((((x.optProp "image_url").coalesce (x.optProp "image")).coalesce
        (x.optProp "image_file")).coalesce JsVal.null) with
  | error e => simp [bind, Except.bind, pure, Except.pure, Except.map, h]
  | ok v =>
    simp only [bind, Except.bind, pure, Except.pure, Except.map, h]
    exact ⟨rfl, rfl, rfl⟩

/-- C11, counterexample. The listing record `{ image_url: " http://x " }` and the
blog record with the same field are given `imagen = " http://x "`, with the
blanks, while the text with leading and trailing white space removed is
`"http://x"`. -/
theorem image_string_not_trimmed :
    (mapServiceFromXano (JsVal.obj [("image_url", JsVal.str " http://x ")])).map
        (fun r => r.optProp "imagen") = Except.ok (JsVal.str " http://x ")
    ∧ (mapBlogFromXano (JsVal.obj [("image_url", JsVal.str " http://x ")])).map
        (fun r => r.optProp "imagen") = Except.ok (JsVal.str " http://x ")
    ∧ jsTrim " http://x " = "http://x"
    ∧ JsVal.str " http://x " ≠ JsVal.str (jsTrim " http://x ") := by
  refine ⟨rfl, rfl, by decide, ?_⟩
  intro h
  injection h with h
  revert h
  decide

/-- C11, as amended. For every remote record whose image field is a string `s`,
the resolved image `imagen` is `s` itself, unchanged: nothing is trimmed. This
holds in the listing and in the blog normaliser. -/
theorem image_string_passthrough (x : JsVal) (s : String) (hx : x.truthy = true)
    (hservice : mapServiceFromXano.rawImage x = JsVal.str s)
    (hblog : mapBlogFromXano.rawImage x = JsVal.str s) :
    (mapServiceFromXano x).map (fun r => r.optProp "imagen") = Except.ok (JsVal.str s)
    ∧ (mapBlogFromXano x).map (fun r => r.optProp "imagen") = Except.ok (JsVal.str s) := by
  rw [mapServiceFromXano_imagen x hx, (mapBlogFromXano_images x hx).1, hservice, hblog]
  exact ⟨service_normalizedImage_str s, blog_normalizedImage_str s⟩

theorem image_string_passthrough_witness :
    (mapServiceFromXano (JsVal.obj [("id", JsVal.num 3), ("image", JsVal.str " http://x ")])).map
        (fun r => r.optProp "imagen") = Except.ok (JsVal.str " http://x ")
    ∧ (mapBlogFromXano (JsVal.obj [("id", JsVal.num 3), ("image", JsVal.str " http://x ")])).map
        (fun r => r.optProp "imagen") = Except.ok (JsVal.str " http://x ") :=
  image_string_passthrough (JsVal.obj [("id", JsVal.num 3), ("image", JsVal.str " http://x ")])
    " http://x " rfl rfl rfl

/-- C12. Image normalisation is total and idempotent on the listed inputs: for
each of `undefined`, `null`, `""`, `"http://x"`, `["http://x"]`,
`[{url:"http://x"}]`, `{url:"http://x"}`, `{file:{url:"http://x"}}`, `{}` and
`[]`, in this order, the resolution returns a string without throwing (`""`
or `"http://x"`), and resolving that output again returns the same string; in
the listing and in the blog normaliser. -/
theorem image_normalization_listed_inputs :
    listedImages.map mapServiceFromXano.normalizedImage
      = (["", "", "", "http://x", "http://x", "http://x", "http://x", "http://x", "", ""].map
          fun s => Except.ok (JsVal.str s))
    ∧ listedImages.map (fun f => mapServiceFromXano.normalizedImage f
          >>= mapServiceFromXano.normalizedImage)
      = listedImages.map mapServiceFromXano.normalizedImage
    ∧ listedImages.map mapBlogFromXano.normalizedImage
      = (["", "", "", "http://x", "http://x", "http://x", "http://x", "http://x", "", ""].map
          fun s => Except.ok (JsVal.str s))
    ∧ listedImages.map (fun f => mapBlogFromXano.normalizedImage f
          >>= mapBlogFromXano.normalizedImage)
      = listedImages.map mapBlogFromXano.normalizedImage :=
  ⟨rfl, rfl, rfl, rfl⟩

/-- C13, failing input. For the blog record
`{ id: 1, title: "t", image: { url: ["http://x"] }, user_id: 4 }` the three
fields `imagen`, `imagen_url` and `image_url` are equal, but their common value
is the array `["http://x"]`, not a string. -/
theorem mapBlogFromXano_imagen_not_string :
    (mapBlogFromXano
        (JsVal.obj [("id", JsVal.num 1), ("title", JsVal.str "t"),
          ("image", JsVal.obj [("url", JsVal.arr [JsVal.str "http://x"])]),
          ("user_id", JsVal.num 4)])).map
      (fun r => [r.optProp "imagen", r.optProp "imagen_url", r.optProp "image_url"])
      = Except.ok [JsVal.arr [JsVal.str "http://x"], JsVal.arr [JsVal.str "http://x"],
          JsVal.arr [JsVal.str "http://x"]]
    ∧ (JsVal.arr [JsVal.str "http://x"]).isString = false :=
  ⟨rfl, rfl⟩

/-! ## Theorems: the text of a number -/

theorem digitChar_isDigit (k : Nat) (hk : k < 10) : (Nat.digitChar k).isDigit = true := by
  interval_cases k <;> decide

theorem toDigitsCore_digits (f n : Nat) (ds : List Char)
    (hds : ∀ c ∈ ds, c.isDigit = true) :
    ∀ c ∈ Nat.toDigitsCore 10 f n ds, c.isDigit = true := by
  induction f generalizing n ds with
  | zero => simpa [Nat.toDigitsCore] using hds
  | succ f ih =>
    have hd : ∀ c ∈ Nat.digitChar (n % 10) :: ds, c.isDigit = true := by
      intro c hc
      rcases List.mem_cons.mp hc with h | h
      · rw [h]; exact digitChar_isDigit _ (Nat.mod_lt _ (by decide))
      · exact hds c h
    simp only [Nat.toDigitsCore]
    split
    · exact hd
    · exact ih _ _ hd

theorem toDigitsCore_ne_nil (f n : Nat) (ds : List Char) (h : 0 < f ∨ ds ≠ []) :
    Nat.toDigitsCore 10 f n ds ≠ [] := by
  induction f generalizing n ds with
  | zero =>
    rcases h with h | h
    · exact absurd h (by decide)
    · simpa [Nat.toDigitsCore] using h
  | succ f ih =>
    simp only [Nat.toDigitsCore]
    split
    · simp
    · exact ih _ _ (Or.inr (by simp))

theorem natRepr_digits (m : Nat) : ∀ c ∈ (toString m).data, c.isDigit = true := by
  show ∀ c ∈ (Nat.toDigits 10 m), c.isDigit = true
  exact toDigitsCore_digits _ _ _ (by simp)

theorem natRepr_ne_empty (m : Nat) : (toString m) ≠ "" := by
  intro h
  have h2 := congrArg String.data h
  exact toDigitsCore_ne_nil (m + 1) m [] (Or.inl (by omega)) h2

theorem exponentForm_ne_empty (v : Nat) : exponentForm v ≠ "" := by
  intro h
  have h2 := congrArg String.data h
  simp only [exponentForm] at h2
  split at h2 <;> simp at h2

theorem exponentForm_chars (v : Nat) :
    ∀ c ∈ (exponentForm v).data, c.isDigit = true ∨ c = '.' ∨ c = 'e' ∨ c = '+' := by
  have hexp : ∀ n : Nat, ∀ c ∈ Nat.toDigits 10 n, c.isDigit = true :=
    fun n => toDigitsCore_digits _ _ _ (by simp)
  have hsig : ∀ c ∈ ((Nat.toDigits 10 v).reverse.dropWhile (fun c => c == '0')).reverse,
      c.isDigit = true := by
    intro c hc
    rw [List.mem_reverse] at hc
    have hc2 := (List.dropWhile_sublist _).subset hc
    rw [List.mem_reverse] at hc2
    exact hexp v c hc2
  intro c hc
  simp only [exponentForm] at hc
  split at hc
  · rcases List.mem_cons.mp hc with h | hc
    · exact Or.inl (by rw [h]; decide)
    rcases List.mem_cons.mp hc with h | hc
    · exact Or.inr (Or.inr (Or.inl h))
    rcases List.mem_cons.mp hc with h | hc
    · exact Or.inr (Or.inr (Or.inr h))
    exact Or.inl (hexp _ c hc)
  · rename_i d heq
    rw [heq] at hsig
    rcases List.mem_cons.mp hc with h | hc
    · exact Or.inl (hsig c (by rw [h]; simp))
    rcases List.mem_cons.mp hc with h | hc
    · exact Or.inr (Or.inr (Or.inl h))
    rcases List.mem_cons.mp hc with h | hc
    · exact Or.inr (Or.inr (Or.inr h))
    exact Or.inl (hexp _ c hc)
  · rename_i d rest _ heq
    rw [heq] at hsig
    rcases List.mem_cons.mp hc with h | hc
    · exact Or.inl (hsig c (by rw [h]; simp))
    rcases List.mem_cons.mp hc with h | hc
    · exact Or.inr (Or.inl h)
    rcases List.mem_append.mp hc with hc | hc
    · exact Or.inl (hsig c (List.mem_cons_of_mem _ hc))
    rcases List.mem_cons.mp hc with h | hc
    · exact Or.inr (Or.inr (Or.inl h))
    rcases List.mem_cons.mp hc with h | hc
    · exact Or.inr (Or.inr (Or.inr h))
    exact Or.inl (hexp _ c hc)

theorem natToString_ne_empty (m : Nat) : natToString m ≠ "" := by
  simp only [natToString]
  split
  · exact natRepr_ne_empty m
  · split
    · exact natRepr_ne_empty _
    · exact exponentForm_ne_empty _

theorem natToString_chars (m : Nat) :
    ∀ c ∈ (natToString m).data, c.isDigit = true ∨ c = '.' ∨ c = 'e' ∨ c = '+' := by
  simp only [natToString]
  split
  · exact fun c hc => Or.inl (natRepr_digits m c hc)
  · split
    · exact fun c hc => Or.inl (natRepr_digits _ c hc)
    · exact exponentForm_chars _

theorem natToString_small (m : Nat) (hm : m < 9007199254740992) : natToString m = toString m := by
  simp only [natToString, hm, if_true]

theorem numToString_ne_empty (n : Int) : numToString n ≠ "" := by
  cases n with
  | ofNat m => exact natToString_ne_empty m
  | negSucc m =>
    intro h
    have h2 := congrArg String.length h
    change ("-" ++ natToString (m + 1)).length = 0 at h2
    rw [String.length_append] at h2
    have : ("-" : String).length = 1 := rfl
    omega

theorem numToString_chars (n : Int) (hn : 0 < n) :
    ∀ c ∈ (numToString n).data, c.isDigit = true ∨ c = '.' ∨ c = 'e' ∨ c = '+' := by
  cases n with
  | ofNat m => exact natToString_chars m
  | negSucc m => exact absurd hn (by simp [Int.negSucc_lt_zero])

/-! ## Theorems: category normalisation -/

theorem specStringForm_eq (v : JsVal) : specStringForm v = jsString v := by
  cases v with
  | bool b => cases b <;> rfl
  | num n => simp [specStringForm, jsString]
  | _ => rfl

theorem Blog.normalize_object (stringify : JsVal → String) (c : JsVal)
    (hobj : c.isArray = true ∨ ∃ fields, c = JsVal.obj fields) :
    Blog.normalize stringify c =
      if (c.optProp "name").truthy then c.optProp "name"
      else if (c.optProp "nombre").truthy then c.optProp "nombre"
      else if (c.optProp "category").truthy then c.optProp "category"
      else if !(c.optProp "id").isUndefined then JsVal.str (jsString (c.optProp "id"))
      else JsVal.str (stringify c) := by
  rcases hobj with h | ⟨fields, rfl⟩
  · cases c <;> first | rfl | cases h
  · rfl

/-- C14. Category normalisation equals the reference definition: `null` and
`undefined` give `""`; a string gives itself; a number or boolean gives its
string form; an object gives the first present of `name`, `nombre`, `category`,
else the string form of `id`, else the JSON text of the object. In particular
`{id:5, name:"Música"}` gives `"Música"`, `5` gives `"5"` and `null` gives `""`. -/
theorem category_normalize_refines_spec (stringify : JsVal → String) :
    (∀ c : JsVal, Blog.normalize stringify c = specNormalizeCategory stringify c)
    ∧ Blog.normalize stringify (JsVal.obj [("id", JsVal.num 5), ("name", JsVal.str "Música")])
        = JsVal.str "Música"
    ∧ Blog.normalize stringify (JsVal.num 5) = JsVal.str "5"
    ∧ Blog.normalize stringify JsVal.null = JsVal.str "" := by
  refine ⟨fun c => ?_, rfl, rfl, rfl⟩
  cases c with
  | undefined => rfl
  | null => rfl
  | bool b => cases b <;> rfl
  | num n => rfl
  | str s => rfl
  | arr xs => rfl
  | obj fields =>
    rw [Blog.normalize_object stringify _ (Or.inr ⟨fields, rfl⟩)]
    simp only [specNormalizeCategory, specFirstPresent]
    by_cases h1 : ((JsVal.obj fields).optProp "name").truthy = true
    · simp [h1]
    · by_cases h2 : ((JsVal.obj fields).optProp "nombre").truthy = true
      · simp [h1, h2]
      · by_cases h3 : ((JsVal.obj fields).optProp "category").truthy = true
        · simp [h1, h2, h3]
        · simp only [h1, h2, h3]
          cases hid : (JsVal.obj fields).optProp "id" <;>
            simp [JsVal.isUndefined, specStringForm_eq]

theorem Servicios.normalize_eq_Blog (stringify : JsVal → String) (c : JsVal) :
    Servicios.normalize stringify c = Blog.normalize stringify c := by
  cases c with
  | undefined => rfl
  | null => rfl
  | bool b => rfl
  | num n => rfl
  | str s => rfl
  | arr xs => rfl
  | obj fields =>
    rw [Blog.normalize_object stringify _ (Or.inr ⟨fields, rfl⟩)]
    have hS : Servicios.normalize stringify (JsVal.obj fields) =
        ((((JsVal.obj fields).optProp "name").or ((JsVal.obj fields).optProp "nombre")).or
          ((JsVal.obj fields).optProp "category")).or
          (if !((JsVal.obj fields).optProp "id").isUndefined then
            JsVal.str (jsString ((JsVal.obj fields).optProp "id"))
           else JsVal.str (stringify (JsVal.obj fields))) := rfl
    rw [hS]
    by_cases h1 : ((JsVal.obj fields).optProp "name").truthy = true
    · simp [JsVal.or, h1]
    · by_cases h2 : ((JsVal.obj fields).optProp "nombre").truthy = true
      · simp [JsVal.or, h1, h2]
      · by_cases h3 : ((JsVal.obj fields).optProp "category").truthy = true
        · simp [JsVal.or, h1, h2, h3]
        · simp [JsVal.or, h1, h2, h3]

theorem Admin.normalizeCat_eq_Servicios (stringify : JsVal → String) (c : JsVal) :
    Admin.normalizeCat stringify c = Servicios.normalize stringify c := rfl

theorem Blog.normalize_of_isString (stringify : JsVal → String) (v : JsVal)
    (h : v.isString = true) : Blog.normalize stringify v = v := by
  cases v <;> first | rfl | cases h

/-- The normalised category is a string when the three name fields are text
fields. -/
theorem Blog.normalize_isString (stringify : JsVal → String) (c : JsVal)
    (hname : textOrEmpty (c.optProp "name")) (hnombre : textOrEmpty (c.optProp "nombre"))
    (hcategory : textOrEmpty (c.optProp "category")) :
    (Blog.normalize stringify c).isString = true := by
  cases c with
  | undefined => rfl
  | null => rfl
  | bool b => rfl
  | num n => rfl
  | str s => rfl
  | arr xs => rfl
  | obj fields =>
    rw [Blog.normalize_object stringify _ (Or.inr ⟨fields, rfl⟩)]
    by_cases h1 : ((JsVal.obj fields).optProp "name").truthy = true
    · rcases hname with h | h
      · simpa [h1] using h
      · rw [h1] at h; cases h
    · by_cases h2 : ((JsVal.obj fields).optProp "nombre").truthy = true
      · rcases hnombre with h | h
        · simpa [h1, h2] using h
        · rw [h2] at h; cases h
      · by_cases h3 : ((JsVal.obj fields).optProp "category").truthy = true
        · rcases hcategory with h | h
          · simpa [h1, h2, h3] using h
          · rw [h3] at h; cases h
        · rw [if_neg h1, if_neg h2, if_neg h3]
          split <;> rfl

/-- C15, failing input. The category `{ id: 3, name: 2024 }` is normalised to the
number `2024`, not to a string, and the number `2024` is normalised to the
string `"2024"`: normalising twice does not give what normalising once gives,
in `Blog.jsx` and in `Servicios.jsx`. -/
theorem category_normalize_not_idempotent :
    Blog.normalize (fun _ => "")
        (Blog.normalize (fun _ => "") (JsVal.obj [("id", JsVal.num 3), ("name", JsVal.num 2024)]))
      ≠ Blog.normalize (fun _ => "") (JsVal.obj [("id", JsVal.num 3), ("name", JsVal.num 2024)])
    ∧ Servicios.normalize (fun _ => "")
        (Servicios.normalize (fun _ => "")
          (JsVal.obj [("id", JsVal.num 3), ("name", JsVal.num 2024)]))
      ≠ Servicios.normalize (fun _ => "")
          (JsVal.obj [("id", JsVal.num 3), ("name", JsVal.num 2024)]) := by
  have hB : Blog.normalize (fun _ => "")
      (JsVal.obj [("id", JsVal.num 3), ("name", JsVal.num 2024)]) = JsVal.num 2024 := rfl
  have hS : Servicios.normalize (fun _ => "")
      (JsVal.obj [("id", JsVal.num 3), ("name", JsVal.num 2024)]) = JsVal.num 2024 := rfl
  have hB2 : Blog.normalize (fun _ => "") (JsVal.num 2024) = JsVal.str "2024" := rfl
  have hS2 : Servicios.normalize (fun _ => "") (JsVal.num 2024) = JsVal.str "2024" := rfl
  rw [hB, hS, hB2, hS2]
  exact ⟨fun h => JsVal.noConfusion h, fun h => JsVal.noConfusion h⟩

/-- Category normalisation is idempotent on every input whose `name`, `nombre`
and `category` are text fields (a string, or nothing usable): on every string,
number, boolean, `null`, `undefined`, array, and on every such object,
`normalize(normalize(c)) = normalize(c)`, in `Blog.jsx` and in `Servicios.jsx`;
in particular a string is returned unchanged. -/
theorem category_normalize_idempotent (stringify : JsVal → String) (c : JsVal)
    (hname : textOrEmpty (c.optProp "name")) (hnombre : textOrEmpty (c.optProp "nombre"))
    (hcategory : textOrEmpty (c.optProp "category")) :
    Blog.normalize stringify (Blog.normalize stringify c) = Blog.normalize stringify c
    ∧ Servicios.normalize stringify (Servicios.normalize stringify c)
        = Servicios.normalize stringify c
    ∧ (∀ s : String, Blog.normalize stringify (JsVal.str s) = JsVal.str s
        ∧ Servicios.normalize stringify (JsVal.str s) = JsVal.str s) := by
  have h := Blog.normalize_of_isString stringify _
    (Blog.normalize_isString stringify c hname hnombre hcategory)
  refine ⟨h, ?_, fun s => ⟨rfl, rfl⟩⟩
  rw [Servicios.normalize_eq_Blog, Servicios.normalize_eq_Blog]
  exact h

theorem nonempty_text_of_truthy (v : JsVal) (htext : textOrEmpty v) (hv : v.truthy = true) :
    ∃ s : String, v = JsVal.str s ∧ s ≠ "" := by
  rcases htext with h | h
  · cases v with
    | str s => exact ⟨s, rfl, by simpa [JsVal.truthy] using hv⟩
    | _ => cases h
  · rw [hv] at h; cases h

/-- C16, counterexample. The remote category `""`, a string, is normalised to
`""`, which is empty; so it is in `Blog.jsx` and in `Admin.jsx`. -/
theorem category_normalize_empty_string :
    Blog.normalize (fun _ => "{}") (JsVal.str "") = JsVal.str ""
    ∧ Admin.normalizeCat (fun _ => "{}") (JsVal.str "") = JsVal.str "" :=
  ⟨rfl, rfl⟩

/-- C16, as amended. For every remote category that is a string other than `""`,
a number, or an object `{ id, name | nombre | category }` whose `id` is a number
and whose names are strings or absent, the normalised category is a non-empty
string, the same in `Blog.jsx` and in `Admin.jsx`. -/
theorem category_normalize_nonempty (stringify : JsVal → String) (c : JsVal)
    (hc : RemoteCategory c) :
    ∃ s : String, s ≠ "" ∧ Blog.normalize stringify c = JsVal.str s
      ∧ Admin.normalizeCat stringify c = JsVal.str s := by
  have hAdmin : Admin.normalizeCat stringify c = Blog.normalize stringify c := by
    rw [Admin.normalizeCat_eq_Servicios, Servicios.normalize_eq_Blog]
  rw [hAdmin]
  rcases hc with ⟨s, rfl, hs⟩ | ⟨n, rfl⟩ | ⟨fields, n, rfl, hid, hname, hnombre, hcategory⟩
  · exact ⟨s, hs, rfl, rfl⟩
  · exact ⟨numToString n, numToString_ne_empty n, rfl, rfl⟩
  · rw [Blog.normalize_object stringify _ (Or.inr ⟨fields, rfl⟩)]
    by_cases h1 : ((JsVal.obj fields).optProp "name").truthy = true
    · obtain ⟨s, hs, hne⟩ := nonempty_text_of_truthy _ hname h1
      exact ⟨s, hne, by rw [if_pos h1]; exact hs, by rw [if_pos h1]; exact hs⟩
    · by_cases h2 : ((JsVal.obj fields).optProp "nombre").truthy = true
      · obtain ⟨s, hs, hne⟩ := nonempty_text_of_truthy _ hnombre h2
        exact ⟨s, hne, by rw [if_neg h1, if_pos h2]; exact hs,
          by rw [if_neg h1, if_pos h2]; exact hs⟩
      · by_cases h3 : ((JsVal.obj fields).optProp "category").truthy = true
        · obtain ⟨s, hs, hne⟩ := nonempty_text_of_truthy _ hcategory h3
          exact ⟨s, hne, by rw [if_neg h1, if_neg h2, if_pos h3]; exact hs,
            by rw [if_neg h1, if_neg h2, if_pos h3]; exact hs⟩
        · have hid2 : (JsVal.obj fields).optProp "id" = JsVal.num n := hid
          refine ⟨numToString n, numToString_ne_empty n, ?_, ?_⟩ <;>
            · rw [if_neg h1, if_neg h2, if_neg h3, hid2]
              rfl

theorem category_normalize_nonempty_witness :
    ∃ s : String, s ≠ "" ∧ Blog.normalize (fun _ => "{}")
        (JsVal.obj [("id", JsVal.num 5), ("name", JsVal.str "Música")]) = JsVal.str s
      ∧ Admin.normalizeCat (fun _ => "{}")
        (JsVal.obj [("id", JsVal.num 5), ("name", JsVal.str "Música")]) = JsVal.str s :=
  category_normalize_nonempty (fun _ => "{}")
    (JsVal.obj [("id", JsVal.num 5), ("name", JsVal.str "Música")])
    (Or.inr (Or.inr ⟨[("id", JsVal.num 5), ("name", JsVal.str "Música")], 5, rfl, rfl,
      Or.inl rfl, Or.inr rfl, Or.inr rfl⟩))

/-! ## Theorems: user roles -/

theorem strictEqNum_iff (v : JsVal) (n : Int) : v.strictEqNum n = true ↔ v = JsVal.num n := by
  cases v <;> simp [JsVal.strictEqNum]

/-- The fields `rol` and `role_id` that `mapUserFromXano` gives a user record. -/
theorem mapUserFromXano_role (u : JsVal) (hu : u.truthy = true) :
    (mapUserFromXano u).map (fun r => (r.optProp "rol", r.optProp "role_id"))
      = Except.ok
          (if (u.optProp "role_id").strictEqNum 2 then JsVal.str "admin" else JsVal.str "cliente",
            u.optProp "role_id") := by
  simp only [mapUserFromXano, hu, getProp_of_truthy u _ hu]
  rfl

/-- The field `role_id` of the body that `mapUserToXano` builds. -/
theorem mapUserToXano_role_id (d : JsVal) (hd : d.truthy = true) :
    (mapUserToXano d).map (fun r => r.optProp "role_id")
      = Except.ok (JsVal.num
          (if (d.optProp "rol").truthy then
            (if (d.optProp "rol").strictEqStr "admin" then 2 else 1)
           else 1)) := by
  simp only [mapUserToXano, getProp_of_truthy d _ hd]
  rfl

/-- The role label that `mapUserFromXano` derives, by cases on `u.role_id`. -/
theorem mapUserFromXano_rol_cases (u : JsVal) (hu : u.truthy = true) :
    (mapUserFromXano u).map (fun r => r.optProp "role_id") = Except.ok (u.optProp "role_id")
    ∧ (u.optProp "role_id" = JsVal.num 2 →
        (mapUserFromXano u).map (fun r => r.optProp "rol") = Except.ok (JsVal.str "admin"))
    ∧ (u.optProp "role_id" ≠ JsVal.num 2 →
        (mapUserFromXano u).map (fun r => r.optProp "rol") = Except.ok (JsVal.str "cliente")) := by
  have h := mapUserFromXano_role u hu
  cases hm : mapUserFromXano u with
  | error e => rw [hm] at h; cases h
  | ok r =>
    rw [hm] at h
    simp only [Except.map, Except.ok.injEq, Prod.mk.injEq] at h
    refine ⟨by simp [Except.map, h.2], fun h2 => ?_, fun h2 => ?_⟩
    · simp [Except.map, h.1, (strictEqNum_iff _ 2).mpr h2]
    · have : (u.optProp "role_id").strictEqNum 2 = false := by
        cases hb : (u.optProp "role_id").strictEqNum 2
        · rfl
        · exact absurd ((strictEqNum_iff _ 2).mp hb) h2
      simp [Except.map, h.1, this]

/-- C18. For every remote user `u` that is not null, `mapUserFromXano(u).role_id`
is `u.role_id`, and `mapUserFromXano(u).rol` is `'admin'` when `u.role_id` is the
number 2 and `'cliente'` for every other `role_id`, a missing one included. -/
theorem mapUserFromXano_rol (u : JsVal) (hu : u.truthy = true) :
    (mapUserFromXano u).map (fun r => r.optProp "role_id") = Except.ok (u.optProp "role_id")
    ∧ (u.optProp "role_id" = JsVal.num 2 →
        (mapUserFromXano u).map (fun r => r.optProp "rol") = Except.ok (JsVal.str "admin"))
    ∧ (u.optProp "role_id" ≠ JsVal.num 2 →
        (mapUserFromXano u).map (fun r => r.optProp "rol") = Except.ok (JsVal.str "cliente")) :=
  mapUserFromXano_rol_cases u hu

theorem mapUserFromXano_rol_witness :
    (mapUserFromXano (JsVal.obj [("id", JsVal.num 9), ("role_id", JsVal.num 2)])).map
        (fun r => r.optProp "rol") = Except.ok (JsVal.str "admin") :=
  (mapUserFromXano_rol (JsVal.obj [("id", JsVal.num 9), ("role_id", JsVal.num 2)]) rfl).2.1 rfl

/-- C17. Role consistency in both directions. For each label `L` of `'admin'` and
`'cliente'`: `mapUserToXano` of a domain user whose `rol` is `L` sends a
`role_id` (2 for `'admin'`, 1 for `'cliente'`), and `mapUserFromXano` of any
remote user with that `role_id` yields `rol = L`. A domain user with no `rol`
requested is sent with the client id 1. -/
theorem role_round_trip (L : String) (hL : L = "admin" ∨ L = "cliente") (d u : JsVal)
    (hd : d.truthy = true) (hrol : d.optProp "rol" = JsVal.str L) (hu : u.truthy = true) :
    (∃ rid : Int,
      (mapUserToXano d).map (fun r => r.optProp "role_id") = Except.ok (JsVal.num rid)
      ∧ (rid = 2 ↔ L = "admin") ∧ (rid = 1 ↔ L = "cliente")
      ∧ (u.optProp "role_id" = JsVal.num rid →
          (mapUserFromXano u).map (fun r => r.optProp "rol") = Except.ok (JsVal.str L)))
    ∧ (∀ d0 : JsVal, d0.truthy = true → (d0.optProp "rol").truthy = false →
        (mapUserToXano d0).map (fun r => r.optProp "role_id") = Except.ok (JsVal.num 1)) := by
  refine ⟨?_, fun d0 h0 hno => ?_⟩
  · rcases hL with rfl | rfl
    · refine ⟨2, ?_, by decide, by decide, fun h => (mapUserFromXano_rol_cases u hu).2.1 h⟩
      rw [mapUserToXano_role_id d hd, hrol]
      rfl
    · refine ⟨1, ?_, by decide, by decide, fun h => (mapUserFromXano_rol_cases u hu).2.2 ?_⟩
      · rw [mapUserToXano_role_id d hd, hrol]
        rfl
      · rw [h]
        intro hc
        injection hc with hc
        exact absurd hc (by decide)
  · rw [mapUserToXano_role_id d0 h0, hno]
    rfl

theorem role_round_trip_witness :
    (∃ rid : Int,
      (mapUserToXano (JsVal.obj [("nombre", JsVal.str "Ana"), ("rol", JsVal.str "admin")])).map
          (fun r => r.optProp "role_id") = Except.ok (JsVal.num rid)
      ∧ (rid = 2 ↔ "admin" = "admin") ∧ (rid = 1 ↔ "admin" = "cliente")
      ∧ ((JsVal.obj [("id", JsVal.num 9), ("role_id", JsVal.num 2)]).optProp "role_id"
            = JsVal.num rid →
          (mapUserFromXano (JsVal.obj [("id", JsVal.num 9), ("role_id", JsVal.num 2)])).map
            (fun r => r.optProp "rol") = Except.ok (JsVal.str "admin")))
    ∧ (∀ d0 : JsVal, d0.truthy = true → (d0.optProp "rol").truthy = false →
        (mapUserToXano d0).map (fun r => r.optProp "role_id") = Except.ok (JsVal.num 1)) :=
  role_round_trip "admin" (Or.inl rfl)
    (JsVal.obj [("nombre", JsVal.str "Ana"), ("rol", JsVal.str "admin")])
    (JsVal.obj [("id", JsVal.num 9), ("role_id", JsVal.num 2)]) rfl rfl rfl

/-- C19, failing input. `fixAdminRole` calls `usuariosAPI.update(id, { role_id: 2 })`:
the body sent is `mapUserToXano({ role_id: 2 })`, whose `role_id` is 1 (and whose
`name`, `last_name`, `email` and `password` are `""`). `register` called with a
form that sets `role_id: 2` builds the payload `{ ...userData, role_id: 2 }`,
and the body that `usuariosAPI.create` sends for it has `role_id` 1 as well:
`mapUserToXano` reads `rol`, never `role_id`. -/
theorem requested_role_id_dropped :
    usuariosAPI.updateBody fixAdminRole.updateData
      = Except.ok (JsVal.obj [("name", JsVal.str ""), ("last_name", JsVal.str ""),
          ("email", JsVal.str ""), ("password", JsVal.str ""), ("role_id", JsVal.num 1)])
    ∧ AuthContext.registerPayload
        [("nombre", JsVal.str "Ana"), ("apellidos", JsVal.str "Paz"),
          ("email", JsVal.str "ana@x.cl"), ("password", JsVal.str "secreto"),
          ("role_id", JsVal.num 2)]
      = JsVal.obj [("nombre", JsVal.str "Ana"), ("apellidos", JsVal.str "Paz"),
          ("email", JsVal.str "ana@x.cl"), ("password", JsVal.str "secreto"),
          ("role_id", JsVal.num 2)]
    ∧ usuariosAPI.createBody
        (AuthContext.registerPayload
          [("nombre", JsVal.str "Ana"), ("apellidos", JsVal.str "Paz"),
            ("email", JsVal.str "ana@x.cl"), ("password", JsVal.str "secreto"),
            ("role_id", JsVal.num 2)])
      = Except.ok (JsVal.obj [("name", JsVal.str "Ana"), ("last_name", JsVal.str "Paz"),
          ("email", JsVal.str "ana@x.cl"), ("password", JsVal.str "secreto"),
          ("role_id", JsVal.num 1)]) :=
  ⟨rfl, rfl, rfl⟩

/-! ## Theorems: the url of the listing read -/

theorem getAllUrl_filtered (l : LimitValue) (ttl : Int) :
    serviciosAPI.getAllUrl { includeAll := false, limit := l, ttl := ttl }
      = "/service?available=true&status=active"
        ++ (match l with
            | LimitValue.js (JsVal.num n) => if 0 < n then "&limit=" ++ numToString n else ""
            | _ => "") := by
  cases l with
  | js v =>
    cases v with
    | num n =>
      by_cases hn : 0 < n
      · have hne : n ≠ 0 := ne_of_gt hn
        simp only [serviciosAPI.getAllUrl, LimitValue.truthy, JsVal.truthy, Number.isInteger, hn]
        apply String.ext
        simp [String.intercalate, String.intercalate.go, ENDPOINTS.SERVICES, String.data_append,
          hne]
      · simp only [serviciosAPI.getAllUrl, hn, if_false, ite_self]
        rfl
    | _ =>
      simp only [serviciosAPI.getAllUrl, Number.isInteger, Bool.and_false]
      rfl
  | nonInteger x => cases x <;> rfl

theorem getAllUrl_unfiltered (l : LimitValue) (ttl : Int) :
    serviciosAPI.getAllUrl { includeAll := true, limit := l, ttl := ttl }
      = (match l with
          | LimitValue.js (JsVal.num n) =>
            if 0 < n then "/service?limit=" ++ numToString n else "/service"
          | _ => "/service") := by
  cases l with
  | js v =>
    cases v with
    | num n =>
      by_cases hn : 0 < n
      · have hne : n ≠ 0 := ne_of_gt hn
        simp only [serviciosAPI.getAllUrl, LimitValue.truthy, JsVal.truthy, Number.isInteger, hn]
        apply String.ext
        simp [String.intercalate, String.intercalate.go, ENDPOINTS.SERVICES, String.data_append,
          hne]
      · simp only [serviciosAPI.getAllUrl, hn, if_false, ite_self]
        rfl
    | _ =>
      simp only [serviciosAPI.getAllUrl, Number.isInteger, Bool.and_false]
      rfl
  | nonInteger x => cases x <;> rfl

/-- A character that is no digit and none of `/service?limit=.e+` does not occur
in the url of an unfiltered listing read. -/
theorem letter_not_in_unfiltered (l : LimitValue) (ttl : Int) (c : Char)
    (hc : c.isDigit = false) (hmem : c ∉ ("/service?limit=.e+" : String).data) :
    c ∉ (serviciosAPI.getAllUrl { includeAll := true, limit := l, ttl := ttl }).data := by
  have hlong : c ∉ ("/service?limit=" : String).data := by
    intro h
    apply hmem
    have hsub : ("/service?limit=" : String).data ⊆ ("/service?limit=.e+" : String).data := by
      decide
    exact hsub h
  have hshort : c ∉ ("/service" : String).data := by
    intro h
    apply hmem
    have hsub : ("/service" : String).data ⊆ ("/service?limit=.e+" : String).data := by decide
    exact hsub h
  have hpunct : ¬ (c = '.' ∨ c = 'e' ∨ c = '+') := by
    intro h
    apply hmem
    rcases h with h | h | h <;> rw [h] <;> decide
  rw [getAllUrl_unfiltered]
  cases l with
  | js v =>
    cases v with
    | num n =>
      by_cases hn : 0 < n
      · simp only [hn, if_true, String.data_append, List.mem_append, not_or]
        refine ⟨hlong, fun h => ?_⟩
        rcases numToString_chars n hn c h with hd | hp
        · rw [hc] at hd
          cases hd
        · exact hpunct hp
      · simpa only [hn, if_false] using hshort
    | _ => exact hshort
  | nonInteger x => exact hshort

theorem occursIn_filtered_prefix (rest : String) :
    occursIn "available=true" ("/service?available=true&status=active" ++ rest)
    ∧ occursIn "status=active" ("/service?available=true&status=active" ++ rest) := by
  constructor
  · refine ⟨("/service?" : String).data, ("&status=active" : String).data ++ rest.data, ?_⟩
    rw [String.data_append, ← List.append_assoc]
    rfl
  · refine ⟨("/service?available=true&" : String).data, rest.data, ?_⟩
    rw [String.data_append]
    rfl

theorem occursIn_filtered (l : LimitValue) (ttl : Int) :
    occursIn "available=true"
        (serviciosAPI.getAllUrl { includeAll := false, limit := l, ttl := ttl })
    ∧ occursIn "status=active"
        (serviciosAPI.getAllUrl { includeAll := false, limit := l, ttl := ttl }) := by
  rw [getAllUrl_filtered]
  exact occursIn_filtered_prefix _

theorem filtered_ne_unfiltered (l1 l2 : LimitValue) (ttl1 ttl2 : Int) :
    serviciosAPI.getAllUrl { includeAll := false, limit := l1, ttl := ttl1 }
      ≠ serviciosAPI.getAllUrl { includeAll := true, limit := l2, ttl := ttl2 } := by
  intro h
  have ha : 'a' ∈ (serviciosAPI.getAllUrl { includeAll := false, limit := l1, ttl := ttl1 }).data :=
    (occursIn_filtered l1 ttl1).1.subset (by decide)
  rw [h] at ha
  exact letter_not_in_unfiltered l2 ttl2 'a' (by decide) (by decide) ha

/-- C20. Filtered and unfiltered listing reads cache independently: for all limit
values `l1` and `l2` (and all ttl), the url that `serviciosAPI.getAll` builds
with `includeAll = false` differs from the one it builds with
`includeAll = true`, and so do their cache keys; with `includeAll = false` the
url carries `available=true` and `status=active`, with `includeAll = true` it
carries neither. -/
theorem filtered_and_unfiltered_reads_differ (l1 l2 : LimitValue) (ttl1 ttl2 : Int)
    (base : String) :
    serviciosAPI.getAllUrl { includeAll := false, limit := l1, ttl := ttl1 }
      ≠ serviciosAPI.getAllUrl { includeAll := true, limit := l2, ttl := ttl2 }
    ∧ cacheKey base (serviciosAPI.getAllUrl { includeAll := false, limit := l1, ttl := ttl1 })
      ≠ cacheKey base (serviciosAPI.getAllUrl { includeAll := true, limit := l2, ttl := ttl2 })
    ∧ occursIn "available=true"
        (serviciosAPI.getAllUrl { includeAll := false, limit := l1, ttl := ttl1 })
    ∧ occursIn "status=active"
        (serviciosAPI.getAllUrl { includeAll := false, limit := l1, ttl := ttl1 })
    ∧ ¬ occursIn "available=true"
        (serviciosAPI.getAllUrl { includeAll := true, limit := l2, ttl := ttl2 })
    ∧ ¬ occursIn "status=active"
        (serviciosAPI.getAllUrl { includeAll := true, limit := l2, ttl := ttl2 }) := by
  refine ⟨filtered_ne_unfiltered l1 l2 ttl1 ttl2, ?_, (occursIn_filtered l1 ttl1).1,
    (occursIn_filtered l1 ttl1).2, ?_, ?_⟩
  · intro hkey
    have hdata := congrArg String.data hkey
    simp only [cacheKey, String.data_append, List.append_assoc] at hdata
    exact filtered_ne_unfiltered l1 l2 ttl1 ttl2
      (String.ext (List.append_cancel_left (List.append_cancel_left hdata)))
  · intro h
    exact letter_not_in_unfiltered l2 ttl2 'a' (by decide) (by decide) (h.subset (by decide))
  · intro h
    exact letter_not_in_unfiltered l2 ttl2 'u' (by decide) (by decide) (h.subset (by decide))


/-! ## Theorems: the limit parameter, the four category normalisers -/

theorem numToString_small (n : Int) (h0 : 0 ≤ n) (hn : n < 9007199254740992) :
    numToString n = toString n := by
  cases n with
  | ofNat m =>
    have hm : m < 9007199254740992 := by
      have h := hn
      rw [Int.ofNat_eq_coe] at h
      omega
    exact natToString_small m hm
  | negSucc m => exact absurd h0 (by simp [Int.negSucc_lt_zero])

/-- The url of the listing read for limits of every kind: 4, 10^21 (whose text
is `1e+21`), 2^60, the fraction 2.5, `NaN`, infinity, the string `'5'`, 0, -3,
and no limit. -/
theorem getAllUrl_examples :
    serviciosAPI.getAllUrl { includeAll := false, limit := LimitValue.js (JsVal.num 4) }
      = "/service?available=true&status=active&limit=4"
    ∧ serviciosAPI.getAllUrl
        { includeAll := false, limit := LimitValue.js (JsVal.num 1000000000000000000000) }
      = "/service?available=true&status=active&limit=1e+21"
    ∧ serviciosAPI.getAllUrl
        { includeAll := true, limit := LimitValue.js (JsVal.num 1152921504606846976) }
      = "/service?limit=1152921504606847000"
    ∧ serviciosAPI.getAllUrl
        { includeAll := true, limit := LimitValue.nonInteger (NonInteger.fraction 2 0) }
      = "/service"
    ∧ serviciosAPI.getAllUrl { includeAll := true, limit := LimitValue.nonInteger NonInteger.nan }
      = "/service"
    ∧ serviciosAPI.getAllUrl
        { includeAll := true, limit := LimitValue.nonInteger (NonInteger.infinity false) }
      = "/service"
    ∧ serviciosAPI.getAllUrl { includeAll := true, limit := LimitValue.js (JsVal.str "5") }
      = "/service"
    ∧ serviciosAPI.getAllUrl { includeAll := true, limit := LimitValue.js (JsVal.num 0) }
      = "/service"
    ∧ serviciosAPI.getAllUrl { includeAll := false, limit := LimitValue.js (JsVal.num (-3)) }
      = "/service?available=true&status=active"
    ∧ serviciosAPI.getAllUrl {} = "/service?available=true&status=active" := by
  refine ⟨?_, ?_, ?_, ?_, ?_, ?_, ?_, ?_, ?_, ?_⟩ <;> decide

/-- C21. The url built by `serviciosAPI.getAll` carries the constraint `limit=n`
exactly when `options.limit` is a positive integer `n`: it is then the url built
without a limit, followed by `?` or `&` and `limit=` with the text of `n`; for
every other limit (absent, `null`, 0, negative, a number that is not an integer:
a fraction, `NaN`, an infinity; or not a number) the url is the one built
without a limit and the text `limit=` does not occur in it. The text of `n` is
the one of the template literal: the decimal digits of `n` below 2^53. -/
theorem getAll_limit_parameter (includeAll : Bool) (limit : LimitValue) (ttl : Int) :
    (∀ n : Int, limit = LimitValue.js (JsVal.num n) → 0 < n →
      serviciosAPI.getAllUrl { includeAll := includeAll, limit := limit, ttl := ttl }
        = serviciosAPI.getAllUrl
            { includeAll := includeAll, limit := LimitValue.js JsVal.null, ttl := ttl }
          ++ (if includeAll then "?" else "&") ++ "limit=" ++ numToString n
      ∧ occursIn ("limit=" ++ numToString n)
          (serviciosAPI.getAllUrl { includeAll := includeAll, limit := limit, ttl := ttl }))
    ∧ ((∀ n : Int, limit = LimitValue.js (JsVal.num n) → n ≤ 0) →
      serviciosAPI.getAllUrl { includeAll := includeAll, limit := limit, ttl := ttl }
        = serviciosAPI.getAllUrl
            { includeAll := includeAll, limit := LimitValue.js JsVal.null, ttl := ttl }
      ∧ ¬ occursIn "limit="
          (serviciosAPI.getAllUrl { includeAll := includeAll, limit := limit, ttl := ttl }))
    ∧ (∀ n : Int, 0 < n → n < 9007199254740992 → numToString n = toString n) := by
  refine ⟨?_, ?_, fun n h0 hn => numToString_small n (le_of_lt h0) hn⟩
  · intro n hl hn
    subst hl
    have hurl : serviciosAPI.getAllUrl
          { includeAll := includeAll, limit := LimitValue.js (JsVal.num n), ttl := ttl }
        = serviciosAPI.getAllUrl
            { includeAll := includeAll, limit := LimitValue.js JsVal.null, ttl := ttl }
          ++ (if includeAll then "?" else "&") ++ "limit=" ++ numToString n := by
      cases includeAll
      · rw [getAllUrl_filtered, getAllUrl_filtered]
        simp only [hn, if_true]
        apply String.ext
        simp [String.data_append]
      · rw [getAllUrl_unfiltered, getAllUrl_unfiltered]
        simp only [hn, if_true]
        apply String.ext
        simp [String.data_append]
    refine ⟨hurl, ?_⟩
    rw [hurl]
    refine ⟨(serviciosAPI.getAllUrl
      { includeAll := includeAll, limit := LimitValue.js JsVal.null, ttl := ttl }
      ++ (if includeAll then "?" else "&")).data, [], ?_⟩
    simp [String.data_append]
  · intro hno
    have hurl : serviciosAPI.getAllUrl { includeAll := includeAll, limit := limit, ttl := ttl }
        = serviciosAPI.getAllUrl
            { includeAll := includeAll, limit := LimitValue.js JsVal.null, ttl := ttl } := by
      cases includeAll
      · rw [getAllUrl_filtered, getAllUrl_filtered]
        cases limit with
        | js v =>
          cases v with
          | num n => simp [show ¬ 0 < n from not_lt.mpr (hno n rfl)]
          | _ => rfl
        | nonInteger x => rfl
      · rw [getAllUrl_unfiltered, getAllUrl_unfiltered]
        cases limit with
        | js v =>
          cases v with
          | num n => simp [show ¬ 0 < n from not_lt.mpr (hno n rfl)]
          | _ => rfl
        | nonInteger x => rfl
    refine ⟨hurl, ?_⟩
    rw [hurl]
    cases includeAll
    · rw [getAllUrl_filtered]
      show ¬ (("limit=" : String).data <:+: ("/service?available=true&status=active" ++ "").data)
      decide
    · rw [getAllUrl_unfiltered]
      show ¬ (("limit=" : String).data <:+: ("/service" : String).data)
      decide

theorem getAll_limit_parameter_witness :
    serviciosAPI.getAllUrl
        { includeAll := false, limit := LimitValue.js (JsVal.num 4), ttl := 300000 }
        = serviciosAPI.getAllUrl
            { includeAll := false, limit := LimitValue.js JsVal.null, ttl := 300000 }
          ++ (if false then "?" else "&") ++ "limit=" ++ numToString 4
      ∧ occursIn ("limit=" ++ numToString 4)
          (serviciosAPI.getAllUrl
            { includeAll := false, limit := LimitValue.js (JsVal.num 4), ttl := 300000 }) :=
  (getAll_limit_parameter false (LimitValue.js (JsVal.num 4)) 300000).1 4 rfl (by decide)

theorem CrearBlog.normalize_eq_Servicios (stringify : JsVal → String) (c : JsVal) :
    CrearBlog.normalize stringify c = Servicios.normalize stringify c := rfl

/-- C29. The four copies of the category normaliser agree: for every input `c`
(`null`, `undefined`, a string, a number, a boolean, an array, or an object with
any property values) and every behaviour of `JSON.stringify` on objects,
`normalize` of `Blog.jsx`, `normalize` of `Servicios.jsx`, `normalize` of
`CrearBlog.jsx` and `normalizeCat` of `Admin.jsx` return the same result. -/
theorem category_normalizers_agree (stringify : JsVal → String) (c : JsVal) :
    Servicios.normalize stringify c = Blog.normalize stringify c
    ∧ CrearBlog.normalize stringify c = Blog.normalize stringify c
    ∧ Admin.normalizeCat stringify c = Blog.normalize stringify c := by
  refine ⟨Servicios.normalize_eq_Blog stringify c, ?_, ?_⟩
  · rw [CrearBlog.normalize_eq_Servicios, Servicios.normalize_eq_Blog]
  · rw [Admin.normalizeCat_eq_Servicios, Servicios.normalize_eq_Blog]

/-! ## Theorems: multipart requests and the upload response -/

/-- The upload helper and the multipart branch of `blogsAPI.create` pass no
header of their own. -/
theorem multipart_siblings_set_no_header (name : String) (blogData : List (String × FormValue)) :
    (uploadImageToXano.request (some name)).map (fun r => r.options.headers) = Except.ok []
    ∧ ∀ r, blogsAPI.createMultipartRequest blogData = Except.ok r → r.options.headers = [] := by
  refine ⟨rfl, fun r hr => ?_⟩
  unfold blogsAPI.createMultipartRequest at hr
  split at hr
  · cases hr
  · injection hr with hr
    rw [← hr]

/-- C22, failing input. `serviciosAPI.create` called with a `FormData` (a name and
an image file) passes the options `{ headers: { 'Content-Type':
'multipart/form-data' } }` to `api.post`: the content type is set by hand, with
no boundary, while `uploadImageToXano` and `blogsAPI.create` pass no header. -/
theorem serviciosAPI_create_sets_content_type :
    (serviciosAPI.createMultipartRequest
        [("name", FormValue.text "DJ"), ("image_file", FormValue.file "dj.png")]).options.headers
      = [("Content-Type", "multipart/form-data")]
    ∧ (uploadImageToXano.request (some "dj.png")).map (fun r => r.options.headers)
      = Except.ok []
    ∧ (blogsAPI.createMultipartRequest
        [("title", FormValue.text "Boda"), ("content", FormValue.text "Ideas"),
          ("image_file", FormValue.file "boda.png")]).map (fun r => r.options.headers)
      = Except.ok [] := by
  exact ⟨rfl, rfl, rfl⟩

theorem specFirstPresent_or4 (a b c d : JsVal) :
    specFirstPresent [a, b, c, d]
      = if (((a.or b).or c).or d).truthy then some (((a.or b).or c).or d) else none := by
  cases ha : a.truthy <;> cases hb : b.truthy <;> cases hc : c.truthy <;> cases hd : d.truthy <;>
    simp [specFirstPresent, JsVal.or, ha, hb, hc, hd]

theorem uploadImageToXano.parse_eq (data : JsVal) :
    (uploadImageToXano.parse data).toOption = specUploadUrl data := by
  simp only [uploadImageToXano.parse, specUploadUrl, specFirstPresent_or4]
  cases hp : ((((data.optProp "url").or ((data.optProp "file").optProp "url")).or
      (data.optProp "file_url")).or (data.optProp "fileUrl")).truthy
  · simp only [Bool.not_false, if_true, Bool.false_eq_true, if_false]
    cases data with
    | arr xs =>
      cases xs with
      | nil => rfl
      | cons first rest =>
        cases first with
        | obj fields =>
          cases hu : (JsVal.lookupField "url" fields).truthy <;>
            simp [JsVal.getProp, JsVal.optProp, Except.toOption, hu, specFirstPresent]
        | _ => rfl
    | _ => rfl
  · simp [Except.toOption]

/-- C23, counterexample. The upload response `[{ file: { url: "http://x" } }]` holds
a url under `file.url` of its first element, yet `uploadImageToXano` fails with
`La respuesta del servidor no contiene URL pública de la imagen`: of the first
element of an array only the field `url` is read. -/
theorem upload_array_only_url_is_read :
    specUploadUrlAllFields
        (JsVal.arr [JsVal.obj [("file", JsVal.obj [("url", JsVal.str "http://x")])]])
      = some (JsVal.str "http://x")
    ∧ uploadImageToXano (some "foto.png")
        (Except.ok (JsVal.arr [JsVal.obj [("file", JsVal.obj [("url", JsVal.str "http://x")])]]))
      = Except.error
          (Thrown.message "La respuesta del servidor no contiene URL pública de la imagen") :=
  ⟨rfl, rfl⟩

/-- C23, as amended. For every success response, `uploadImageToXano` returns the
first non-empty of `url`, `file.url`, `file_url`, `fileUrl` of the response, or,
when there is none and the response is an array, the `url` of its first element;
it fails with an error if and only if neither is found. -/
theorem upload_url_found (file : String) (data : JsVal) :
    (uploadImageToXano (some file) (Except.ok data)).toOption = specUploadUrl data :=
  uploadImageToXano.parse_eq data

/-! ## Theorems: the bearer credential -/

theorem or_of_truthy (a b : JsVal) (h : a.truthy = true) : a.or b = a := by
  simp [JsVal.or, h]

theorem or_of_falsy (a b : JsVal) (h : a.truthy = false) : a.or b = b := by
  simp [JsVal.or, h]

theorem undefined_or (b : JsVal) : JsVal.undefined.or b = b := rfl

theorem bool_false_and (b : JsVal) : (JsVal.bool false).and b = JsVal.bool false := rfl

theorem bool_true_and (b : JsVal) : (JsVal.bool true).and b = b := rfl

theorem obj_and (fields : List (String × JsVal)) (b : JsVal) : (JsVal.obj fields).and b = b := rfl

/-- The effect of `authAPI.login` on a successful response, by cases on the token. -/
theorem authAPI.login_ok (raw : JsVal) (h : AuthHeaders) :
    ((authAPI.login.token raw).truthy = true →
      authAPI.login (Except.ok raw) h
        = (Except.ok raw,
            { api := some ("Bearer " ++ jsString (authAPI.login.token raw)),
              auth := some ("Bearer " ++ jsString (authAPI.login.token raw)) }))
    ∧ ((authAPI.login.token raw).truthy = false →
      authAPI.login (Except.ok raw) h = (Except.ok raw, { api := h.api, auth := none })) := by
  constructor
  · intro ht
    simp [authAPI.login, ht]
  · intro ht
    simp [authAPI.login, ht]

/-- C24. `authAPI.login` finds the bearer token in each response shape: under
`authToken`, `token` or `accessToken` of the response, under `authToken` or
`token` of its `data`, and under `authToken`, `token` or `accessToken` of the
first element of an array; whenever it finds a token it sets
`Bearer <token>` on both clients and returns the response. For a successful
response without a recognisable token it does not fail: it returns the response
data and sets no `Authorization` header (the data client keeps what it had, the
auth client has none). -/
theorem login_token_shapes (t : JsVal) (ht : t.truthy = true) (h : AuthHeaders) :
    (∀ k ∈ ["authToken", "token", "accessToken"],
      authAPI.login.token (JsVal.obj [(k, t)]) = t)
    ∧ (∀ k ∈ ["authToken", "token"],
      authAPI.login.token (JsVal.obj [("data", JsVal.obj [(k, t)])]) = t)
    ∧ (∀ k ∈ ["authToken", "token", "accessToken"], ∀ rest : List JsVal,
      authAPI.login.token (JsVal.arr (JsVal.obj [(k, t)] :: rest)) = t)
    ∧ (∀ raw : JsVal, authAPI.login.token raw = t →
      authAPI.login (Except.ok raw) h
        = (Except.ok raw,
            { api := some ("Bearer " ++ jsString t), auth := some ("Bearer " ++ jsString t) }))
    ∧ (∀ raw : JsVal, (authAPI.login.token raw).truthy = false →
      authAPI.login (Except.ok raw) h = (Except.ok raw, { api := h.api, auth := none })) := by
  refine ⟨?_, ?_, ?_, ?_, fun raw hno => (authAPI.login_ok raw h).2 hno⟩
  · intro k hk
    simp only [List.mem_cons, List.mem_singleton, List.not_mem_nil, or_false] at hk
    rcases hk with rfl | rfl | rfl <;>
      simp [authAPI.login.token, JsVal.optProp, JsVal.lookupField, JsVal.first, JsVal.isArray,
        undefined_or, bool_false_and, bool_true_and, obj_and, or_of_truthy _ _ ht]
  · intro k hk
    simp only [List.mem_cons, List.mem_singleton, List.not_mem_nil, or_false] at hk
    rcases hk with rfl | rfl <;>
      simp [authAPI.login.token, JsVal.optProp, JsVal.lookupField, JsVal.first, JsVal.isArray,
        undefined_or, bool_false_and, bool_true_and, obj_and, or_of_truthy _ _ ht]
  · intro k hk rest
    simp only [List.mem_cons, List.mem_singleton, List.not_mem_nil, or_false] at hk
    rcases hk with rfl | rfl | rfl <;>
      simp [authAPI.login.token, JsVal.optProp, JsVal.lookupField, JsVal.first, JsVal.isArray,
        undefined_or, bool_false_and, bool_true_and, obj_and, or_of_truthy _ _ ht]
  · intro raw hraw
    have := (authAPI.login_ok raw h).1 (by rw [hraw]; exact ht)
    rw [hraw] at this
    exact this

theorem login_token_shapes_witness :
    authAPI.login (Except.ok (JsVal.arr [JsVal.obj [("authToken", JsVal.str "abc")]]))
        AuthHeaders.init
      = (Except.ok (JsVal.arr [JsVal.obj [("authToken", JsVal.str "abc")]]),
          { api := some ("Bearer " ++ jsString (JsVal.str "abc")),
            auth := some ("Bearer " ++ jsString (JsVal.str "abc")) }) :=
  (login_token_shapes (JsVal.str "abc") rfl AuthHeaders.init).2.2.2.1
    (JsVal.arr [JsVal.obj [("authToken", JsVal.str "abc")]])
    ((login_token_shapes (JsVal.str "abc") rfl AuthHeaders.init).2.2.1 "authToken"
      (by simp) [])

/-- A login that finds a token, `setAuthToken` and `clearAuthToken` keep the two
headers equal. -/
theorem runAll_shared (ops : List AuthOp) (h : AuthHeaders) (hshared : h.api = h.auth)
    (hlogin : ∀ outcome, AuthOp.login outcome ∈ ops →
      ∃ raw, outcome = Except.ok raw ∧ (authAPI.login.token raw).truthy = true) :
    (AuthOp.runAll ops h).api = (AuthOp.runAll ops h).auth := by
  induction ops generalizing h with
  | nil => exact hshared
  | cons op rest ih =>
    have hstep : (AuthOp.run h op).api = (AuthOp.run h op).auth := by
      cases op with
      | setAuthToken token =>
        simp only [AuthOp.run, tokenUtils.setAuthToken]
        split
        · rfl
        · exact hshared
      | clearAuthToken => rfl
      | login outcome =>
        obtain ⟨raw, rfl, ht⟩ := hlogin outcome (List.mem_cons_self _ _)
        simp [AuthOp.run, (authAPI.login_ok raw h).1 ht]
    exact ih (AuthOp.run h op) hstep (fun o ho => hlogin o (List.mem_cons_of_mem _ ho))

/-- C25, failing input. After `tokenUtils.setAuthToken("abc")`, a call of
`authAPI.login` that fails with status 401, or that succeeds with a response
holding no token, leaves `Bearer abc` on the data client and no `Authorization`
header on the auth client: `login` deletes the header of the auth client only
before its request. -/
theorem login_breaks_shared_credential :
    AuthOp.runAll
        [AuthOp.setAuthToken (JsVal.str "abc"),
          AuthOp.login (Except.error { config := none, status := some 401 })]
        AuthHeaders.init
      = { api := some "Bearer abc", auth := none }
    ∧ AuthOp.runAll
        [AuthOp.setAuthToken (JsVal.str "abc"),
          AuthOp.login (Except.ok (JsVal.obj [("message", JsVal.str "ok")]))]
        AuthHeaders.init
      = { api := some "Bearer abc", auth := none } := by
  exact ⟨by decide, by decide⟩

/-- C30, failing input. For the auth response `{ accessToken: "abc" }`,
`authAPI.login` extracts the token `"abc"` and sets `Bearer abc` on both
clients, while the expression of `AuthContext` (which reads `access_token`)
finds no token and stores nothing under `ambienteFestToken`; for
`{ access_token: "abc" }` it is the other way round. -/
theorem token_extractions_disagree :
    authAPI.login.configuredToken (JsVal.obj [("accessToken", JsVal.str "abc")])
      = some (JsVal.str "abc")
    ∧ AuthContext.storedToken (JsVal.obj [("accessToken", JsVal.str "abc")]) = none
    ∧ (authAPI.login (Except.ok (JsVal.obj [("accessToken", JsVal.str "abc")]))
        AuthHeaders.init).2
      = { api := some "Bearer abc", auth := some "Bearer abc" }
    ∧ authAPI.login.configuredToken (JsVal.obj [("access_token", JsVal.str "abc")]) = none
    ∧ AuthContext.storedToken (JsVal.obj [("access_token", JsVal.str "abc")])
      = some (JsVal.str "abc") :=
  ⟨rfl, rfl, rfl, rfl, rfl⟩

theorem and_of_truthy (a b : JsVal) (h : a.truthy = true) : a.and b = b := by
  simp [JsVal.and, h]

theorem and_of_falsy (a b : JsVal) (h : a.truthy = false) : a.and b = a := by
  simp [JsVal.and, h]

theorem or_falsy_middle (p x y c : JsVal) (hx : x.truthy = false) (hy : y.truthy = false) :
    (p.or x).or c = (p.or y).or c := by
  cases hp : p.truthy
  · rw [or_of_falsy p x hp, or_of_falsy p y hp, or_of_falsy x c hx, or_of_falsy y c hy]
  · rw [or_of_truthy p x hp, or_of_truthy p y hp]

/-- The two token expressions agree on every response that holds nothing under
`accessToken` or `access_token` and nothing under `accessToken` of its first
element: both find the same token, or both find none. -/
theorem token_extractions_agree (raw : JsVal)
    (h1 : (raw.optProp "accessToken").truthy = false)
    (h2 : (raw.optProp "access_token").truthy = false)
    (h3 : (raw.first.optProp "accessToken").truthy = false) :
    authAPI.login.configuredToken raw = AuthContext.storedToken raw := by
  simp only [authAPI.login.configuredToken, AuthContext.storedToken, authAPI.login.token,
    AuthContext.possibleToken]
  rw [or_falsy_middle _ (raw.optProp "accessToken") (raw.optProp "access_token") _ h1 h2]
  generalize ((((raw.optProp "authToken").or (raw.optProp "token")).or
    (raw.optProp "access_token")).or ((raw.optProp "data").optProp "authToken")).or
    ((raw.optProp "data").optProp "token") = q
  generalize ((JsVal.bool raw.isArray).and raw.first) = g
  generalize ((raw.first.optProp "authToken").or (raw.first.optProp "token")) = f
  generalize hz : raw.first.optProp "accessToken" = z at h3
  cases hq : q.truthy
  · rw [or_of_falsy q _ hq, or_of_falsy q _ hq]
    cases hg : g.truthy
    · rw [and_of_falsy g _ hg, and_of_falsy g _ hg]
    · rw [and_of_truthy g _ hg, and_of_truthy g _ hg]
      cases hf : f.truthy
      · rw [or_of_falsy f z hf]
        simp [h3, hf]
      · rw [or_of_truthy f z hf]
        simp [hf]
  · rw [or_of_truthy q _ hq, or_of_truthy q _ hq]

/-! ## Theorems: failures of the facade reads -/

/-- C26, counterexample. When its request fails with status 500,
`rolesAPI.getAll` resolves with the static roles `admin` and `cliente`, and
`usuariosAPI.findByEmail` resolves with `null`: neither rejects. -/
theorem reads_with_default_on_failure :
    ReadOp.result ReadOp.rolesGetAll (Except.error { config := none, status := some 500 })
      = Except.ok rolesAPI.fallback
    ∧ ReadOp.result (ReadOp.usuariosFindByEmail "ana@x.cl")
        (Except.error { config := none, status := some 500 })
      = Except.ok JsVal.null :=
  ⟨rfl, rfl⟩

/-- C26, as amended. Every facade read other than the category lookups,
`rolesAPI.getAll` and `usuariosAPI.findByEmail` rejects with the error of its
failed request; `rolesAPI.getAll` resolves with its static roles and
`usuariosAPI.findByEmail` with `null`, whatever the error. -/
theorem reads_reject_on_failure (op : ReadOp) (err : AxiosError)
    (hop : op.hasFallback = false) :
    ReadOp.result op (Except.error err) = Except.error (Thrown.axios err)
    ∧ ReadOp.result ReadOp.rolesGetAll (Except.error err) = Except.ok rolesAPI.fallback
    ∧ ∀ email, ReadOp.result (ReadOp.usuariosFindByEmail email) (Except.error err)
        = Except.ok JsVal.null := by
  refine ⟨?_, rfl, fun _ => rfl⟩
  cases op <;> first | rfl | cases hop

theorem reads_reject_on_failure_witness :
    ReadOp.result ReadOp.serviciosGetAll (Except.error { config := none, status := some 500 })
      = Except.error (Thrown.axios { config := none, status := some 500 }) :=
  (reads_reject_on_failure ReadOp.serviciosGetAll { config := none, status := some 500 } rfl).1

/-! ## Theorems: secrets and `localStorage` -/

theorem lookupField_removeField_self (k : String) (fields : List (String × JsVal)) :
    JsVal.lookupField k (removeField k fields) = JsVal.undefined := by
  induction fields with
  | nil => rfl
  | cons p rest ih =>
    obtain ⟨k1, v⟩ := p
    by_cases h : k1 = k
    · simpa [removeField, h] using ih
    · simpa [removeField, h, JsVal.lookupField] using ih

theorem lookupField_removeField_other (k k2 : String) (fields : List (String × JsVal))
    (h : JsVal.lookupField k fields = JsVal.undefined) :
    JsVal.lookupField k (removeField k2 fields) = JsVal.undefined := by
  induction fields with
  | nil => rfl
  | cons p rest ih =>
    obtain ⟨k1, v⟩ := p
    by_cases h1 : k1 = k
    · subst h1
      simp only [JsVal.lookupField, if_true] at h
      subst h
      by_cases h2 : k1 = k2
      · subst h2
        exact lookupField_removeField_self k1 _
      · simp [removeField, h2, JsVal.lookupField]
    · simp only [JsVal.lookupField, h1, if_false] at h
      by_cases h2 : k1 = k2
      · simpa [removeField, h2] using ih h
      · simpa [removeField, h2, JsVal.lookupField, h1] using ih h

/-- The session snapshot that `login` and `register` store under
`ambienteFestUser` has no `password` and no `password_hash`. -/
theorem session_snapshot_has_no_secret (user : JsVal) :
    hasStoredField "password" (AuthContext.userWithoutPassword user) = false
    ∧ hasStoredField "password_hash" (AuthContext.userWithoutPassword user) = false := by
  cases user with
  | obj fields =>
    constructor
    · have h := lookupField_removeField_other "password" "password_hash" _
        (lookupField_removeField_other "password" "clave_hash" _
          (lookupField_removeField_self "password" fields))
      simp [hasStoredField, AuthContext.userWithoutPassword, JsVal.optProp, h, JsVal.isUndefined]
    · have h := lookupField_removeField_self "password_hash"
        (removeField "clave_hash" (removeField "password" fields))
      simp [hasStoredField, AuthContext.userWithoutPassword, JsVal.optProp, h, JsVal.isUndefined]
  | _ => exact ⟨rfl, rfl⟩

/-- C27, failing input. The admin screen has loaded the users
`{ id: 1, name: "Ana", email: "ana@x.cl", password: "secreto", password_hash: "h1" }`
and `{ id: 2, name: "Luis", ... }` through `usuariosAPI.getAll` and deletes user
2: the list written under `ambienteFestUsers` holds user 1 with
`password: "secreto"` and `password_hash: "h1"`. -/
theorem admin_user_list_stores_secrets :
    (Admin.handleDeleteUser
        [JsVal.obj [("id", JsVal.num 1), ("name", JsVal.str "Ana"), ("email", JsVal.str "ana@x.cl"),
            ("password", JsVal.str "secreto"), ("password_hash", JsVal.str "h1")],
          JsVal.obj [("id", JsVal.num 2), ("name", JsVal.str "Luis"),
            ("email", JsVal.str "luis@x.cl"), ("password", JsVal.str "clave"),
            ("password_hash", JsVal.str "h2")]]
        (JsVal.num 2)).map
      (fun stored => stored.map
        (fun u => (u.optProp "id", u.optProp "password", u.optProp "password_hash",
          hasStoredField "password" u, hasStoredField "password_hash" u)))
      = Except.ok [(JsVal.num 1, JsVal.str "secreto", JsVal.str "h1", true, true)] :=
  rfl

/-! ## Theorems: duplicate accounts at signup -/

/-- C28, counterexample. A signup refused with status 409 is rejected with the
duplicate message and `status` 409, one refused with status 422 with the same
message and `status` 422, and one whose message says `duplicate` without a
response with `status` 500: the status is not one and the same. A refusal with
status 400 and the message `Email already exists` is not recognised at all: it is
rejected with that message and no status. -/
theorem duplicate_signals_differ :
    authAPI.signup.handleError
        { message := JsVal.str "Request failed with status code 409",
          response := some (409, JsVal.obj [("message", JsVal.str "Conflict")]) }
      = SignupRejection.created "El email ya está registrado en el sistema" (some 409)
          (some (JsVal.obj [("message", JsVal.str "Conflict")]))
    ∧ authAPI.signup.handleError
        { message := JsVal.str "Request failed with status code 422",
          response := some (422, JsVal.obj [("message", JsVal.str "Invalid input")]) }
      = SignupRejection.created "El email ya está registrado en el sistema" (some 422)
          (some (JsVal.obj [("message", JsVal.str "Invalid input")]))
    ∧ authAPI.signup.handleError
        { message := JsVal.str "Duplicate record", response := none }
      = SignupRejection.created "El email ya está registrado en el sistema" (some 500) none
    ∧ authAPI.signup.handleError
        { message := JsVal.str "Request failed with status code 400",
          response := some (400, JsVal.obj [("message", JsVal.str "Email already exists")]) }
      = SignupRejection.created "Email already exists" none
          (some (JsVal.obj [("message", JsVal.str "Email already exists")])) :=
  ⟨rfl, rfl, rfl, rfl⟩

/-- C28, as amended. Every failure of `authAPI.signup` whose response has status
409 or 422, or whose message contains `duplicate`, and whose message is not one
of the post-signup verification messages, is rejected with the one message
`El email ya está registrado en el sistema`; the status it carries is the status
of the response (409 or 422 for these two, 500 when there is no response, 409
for a 403 that says `already in use`). A response with status 403 whose message
contains `already in use`, or whose code is `ERROR_CODE_ACCESS_DENIED`, is
rejected with the same message and status 409. -/
theorem duplicate_signals_normalized (error : CaughtError)
    (hverif : authAPI.signup.verificationErrors.any
      (fun ve => includes (toLowerCase (authAPI.signup.serverMessage error)) ve) = false)
    (hsignal : error.status = some 409 ∨ error.status = some 422
      ∨ includes (toLowerCase (authAPI.signup.serverMessage error)) "duplicate" = true) :
    (∃ (s : Nat) (d : Option JsVal),
      authAPI.signup.handleError error
        = SignupRejection.created authAPI.signup.duplicateMessage (some s) d
      ∧ (error.status = some 409 → s = 409) ∧ (error.status = some 422 → s = 422)
      ∧ (error.status = none → s = 500))
    ∧ ∀ e403 : CaughtError, e403.status = some 403 →
        (includes (toLowerCase (jsString (((e403.data.or (JsVal.obj [])).optProp "message").or
            (JsVal.str "")))) "already in use" = true
          ∨ (((e403.data.or (JsVal.obj [])).optProp "code").or (JsVal.str "")).strictEqStr
              "ERROR_CODE_ACCESS_DENIED" = true) →
        authAPI.signup.handleError e403
          = SignupRejection.created authAPI.signup.duplicateMessage (some 409)
              (some (e403.data.or (JsVal.obj []))) := by
  constructor
  · by_cases h403 : error.status = some 403
        ∧ (includes (toLowerCase (jsString (((error.data.or (JsVal.obj [])).optProp "message").or
            (JsVal.str "")))) "already in use" = true
          ∨ (((error.data.or (JsVal.obj [])).optProp "code").or (JsVal.str "")).strictEqStr
              "ERROR_CODE_ACCESS_DENIED" = true)
    · refine ⟨409, some (error.data.or (JsVal.obj [])), ?_, fun _ => rfl, fun h => ?_,
        fun h => ?_⟩
      · simp only [authAPI.signup.handleError]
        rw [if_pos h403]
      · rw [h403.1] at h; cases h
      · rw [h403.1] at h; cases h
    · have hdup : (includes (toLowerCase (authAPI.signup.serverMessage error)) "duplicate"
          || error.status == some 409 || error.status == some 422) = true := by
        rcases hsignal with h | h | h
        · simp [h]
        · simp [h]
        · simp [h]
      refine ⟨(match error.status with
          | some 0 => 500
          | some n => n
          | none => 500),
        (match error.response with
          | some r => some r.2
          | none => none), ?_, fun h => ?_, fun h => ?_, fun h => ?_⟩
      · simp only [authAPI.signup.handleError]
        rw [if_neg h403]
        simp only [hverif, hdup, if_true, Bool.false_eq_true, if_false]
      · simp [h]
      · simp [h]
      · simp [h]
  · intro e403 hs hmsg
    simp only [authAPI.signup.handleError]
    rw [if_pos ⟨hs, hmsg⟩]

theorem duplicate_signals_normalized_witness :
    ∃ (s : Nat) (d : Option JsVal),
      authAPI.signup.handleError
          { message := JsVal.str "Request failed with status code 409",
            response := some (409, JsVal.obj [("message", JsVal.str "Conflict")]) }
        = SignupRejection.created authAPI.signup.duplicateMessage (some s) d
      ∧ ((409 : Nat) = 409 → s = 409) :=
  have h := (duplicate_signals_normalized
    { message := JsVal.str "Request failed with status code 409",
      response := some (409, JsVal.obj [("message", JsVal.str "Conflict")]) }
    (by decide) (Or.inl rfl)).1
  h.elim fun s hs => hs.elim fun d hd => ⟨s, d, hd.1, fun _ => hd.2.1 rfl⟩


end Api
